import Mathlib

/-!
# bzfile: file handles exported to Lua (src/src/LuaExport.cpp)

A shallow embedding of the `File` namespace of `LuaExport.cpp`.

The C++ functions are translated one by one (`Open`, `Cleanup`, `Write`,
`Writeln`, `Read`, `Readln`, `Dump`, `Flush`, `Close`).  They run against two
libraries that are not part of the repository and are modelled here as far as
the functions use them:

* `std::fstream` (ISO C++ [iostreams]): the state flags `eofbit`, `failbit`,
  `badbit`, the open flag of the file buffer, one file position, the put area
  (`pending`, written to the file by `flush`, `close`, a seek or the
  destructor) and the operations `get`, `read`, `getline`, `operator<<`,
  `clear`, `seekg`, `flush`, `close`.  The file content is the character
  sequence the stream delivers; the translation of line ends that the
  operating system performs below a text-mode stream is not modelled.  The
  get area (`gbuf`) holds the characters fetched from the file in blocks and
  not yet extracted; they are delivered before the file is read again.  The
  put area is unbounded: it reaches the file only through the operations
  named above.
* the Lua 5.1 C API: the stack of the running C function, userdata blocks,
  `luaL_checkstring`, `luaL_optstring`, `luaL_optint`, `lua_push*`,
  `luaL_error`.  The buffer `Read` allocates for `count` bytes needs a block
  of that size (`memory`); the other allocations succeed.  The collector
  runs only where `Cleanup` is called explicitly.

Bytes are `Char`s; a Lua string is a `List Char` and may contain `NUL`.  The
macro `_DEBUG` is the parameter `DEBUG` of the functions it changes.

The first part of the file holds the definitions, the second the theorems;
the theorems named `C1` to `C10` are the numbered properties of the program.
-/

namespace BzFile

/-! ## Bytes and C strings -/

/-- A sequence of bytes: a Lua string, a `std::string` or the content of a file. -/
abbrev Bytes := List Char

/-- The terminator of a C string. -/
def NUL : Char := Char.ofNat 0

/-- The line terminator written by `Writeln` and used by `std::getline`. -/
def NL : Char := Char.ofNat 10

/-- What a `const char*` pointing at the bytes `s` denotes: the bytes before the first `NUL`. -/
def c_str (s : Bytes) : Bytes := s.takeWhile (fun c => c != NUL)

/-! ## The file system -/

/-- The files the process can see.  `files name` is the content of the file,
`none` when it does not exist; `denied name` says that the operating system
refuses to open the file (missing directory, access rights, ...); `bufsiz`
is the number of bytes a file buffer fetches from a file at a time (one byte
when it is 0). -/
structure FileSystem where
  files : Bytes → Option Bytes
  denied : Bytes → Bool
  bufsiz : Nat

/-- Replace (or create) the content of one file. -/
def FileSystem.write (fs : FileSystem) (name : Bytes) (content : Bytes) : FileSystem :=
  { fs with files := fun n => if n = name then some content else fs.files n }

/-! ## `std::fstream` -/

/-- The bits of `std::ios_base::openmode` that `Open` uses. -/
structure openmode where
  in_ : Bool
  out : Bool
  app : Bool
  trunc : Bool
deriving DecidableEq, Repr

/-- State of one `std::fstream` object.  `pos` is the position of the next
character the stream delivers; `gbuf` is the get area, the characters fetched
from the file and not yet extracted, so that the file itself is read from
`pos + gbuf.length` on; `pending` is the put area; `released` counts how
often the operating-system stream behind the object has been released. -/
structure fstream where
  fileName : Bytes
  mode : openmode
  is_open : Bool
  eofbit : Bool
  failbit : Bool
  badbit : Bool
  pos : Nat
  gcount : Nat
  pending : Bytes
  released : Nat
  gbuf : Bytes
deriving DecidableEq, Repr

namespace fstream

/-- State test `good()`: no flag is set. -/
def good (s : fstream) : Bool := !s.eofbit && !s.failbit && !s.badbit

/-- State test `fail()`: `failbit` or `badbit` is set. -/
def fail (s : fstream) : Bool := s.failbit || s.badbit

/-- State test `eof()`: `eofbit` is set. -/
def eof (s : fstream) : Bool := s.eofbit

/-- Member `clear()`: reset all state flags. -/
def clear (s : fstream) : fstream :=
  { s with eofbit := false, failbit := false, badbit := false }

/-- The file buffer can deliver characters: it is open and was opened with `in`. -/
def readable (s : fstream) : Bool := s.is_open && s.mode.in_

/-- The file buffer accepts characters: it is open and was opened with `out`. -/
def writable (s : fstream) : Bool := s.is_open && s.mode.out

/-- Content of the file behind the stream. -/
def content (s : fstream) (fs : FileSystem) : Bytes := (fs.files s.fileName).getD []

/-- The characters the stream delivers next: those in the get area, then
those of the file behind them. -/
def unread (s : fstream) (fs : FileSystem) : Bytes :=
  if s.readable then s.gbuf ++ (s.content fs).drop (s.pos + s.gbuf.length) else []

/-- The get area holds what the file holds at the position of the stream:
the file has not been changed under the buffered characters. -/
def bufferCurrent (s : fstream) (fs : FileSystem) : Prop :=
  s.gbuf = ((s.content fs).drop s.pos).take s.gbuf.length

/-- Extract the next `k` characters (`k` at most the number of characters the
stream can deliver).  They come from the get area; when it runs out the
file buffer fetches as many whole blocks of `bufsiz` bytes from the file as
it takes (`basic_filebuf::underflow`), and what is fetched beyond the `k`
characters stays in the get area. -/
def bump (s : fstream) (fs : FileSystem) (k : Nat) : fstream :=
  if k ≤ s.gbuf.length then { s with pos := s.pos + k, gbuf := s.gbuf.drop k }
  else
    let need := k - s.gbuf.length
    let block := max fs.bufsiz 1
    let blocks := (need + block - 1) / block
    let fetched := ((s.content fs).drop (s.pos + s.gbuf.length)).take (blocks * block)
    { s with pos := s.pos + k, gbuf := fetched.drop need }

/-- Construct `std::fstream(fileName, mode)`.  `in` needs an existing file;
`out` creates the file, empties it unless `app` is given, and positions at its
end.  When the file cannot be opened the object is constructed with `failbit`
set and a closed buffer. -/
def ctor (fs : FileSystem) (fileName : Bytes) (mode : openmode) : fstream × FileSystem :=
  let closed : fstream :=
    { fileName := fileName, mode := mode, is_open := false, eofbit := false,
      failbit := true, badbit := false, pos := 0, gcount := 0, pending := [],
      released := 0, gbuf := [] }
  if fs.denied fileName then (closed, fs)
  else if mode.out then
    let old : Bytes := if mode.app then (fs.files fileName).getD [] else []
    ({ closed with is_open := true, failbit := false, pos := old.length },
      fs.write fileName old)
  else if mode.in_ then
    match fs.files fileName with
    | none => (closed, fs)
    | some _ => ({ closed with is_open := true, failbit := false }, fs)
  else (closed, fs)

/-- Write the put area to the file (`basic_filebuf::sync`): at the end of the
file in `app` mode, at the file position otherwise. -/
def sync (s : fstream) (fs : FileSystem) : fstream × FileSystem :=
  if s.writable && !s.pending.isEmpty then
    let old := s.content fs
    let off := if s.mode.app then old.length else s.pos
    let new := old.take off ++ s.pending ++ old.drop (off + s.pending.length)
    ({ s with pending := [], pos := off + s.pending.length }, fs.write s.fileName new)
  else (s, fs)

/-- Member `close()`: an open buffer is written out, its get area dropped and
its operating-system stream released; on a closed buffer the call fails and
sets `failbit`. -/
def close (s : fstream) (fs : FileSystem) : fstream × FileSystem :=
  if s.is_open then
    let r := s.sync fs
    ({ r.1 with is_open := false, released := r.1.released + 1, gbuf := [] }, r.2)
  else ({ s with failbit := true }, fs)

/-- The destructor `~basic_fstream()`: the file buffer is closed if it is still open. -/
def dtor (s : fstream) (fs : FileSystem) : fstream × FileSystem :=
  if s.is_open then
    let r := s.sync fs
    ({ r.1 with is_open := false, released := r.1.released + 1, gbuf := [] }, r.2)
  else (s, fs)

/-- Member `flush()`: with a good stream, write the put area out. -/
def flush (s : fstream) (fs : FileSystem) : fstream × FileSystem :=
  if s.good then s.sync fs else (s, fs)

/-- Formatted output `stream << text`: the sentry fails on a stream that is not
good (`failbit`); characters that the buffer does not accept set `badbit`. -/
def put (s : fstream) (text : Bytes) : fstream :=
  if !s.good then { s with failbit := true }
  else if text.isEmpty then s
  else if s.writable then { s with pending := s.pending ++ text }
  else { s with badbit := true }

/-- Member `get(c)`: one character, or `none` with `eofbit` and `failbit` set
when none is left; on a stream that is not good the sentry sets `failbit`. -/
def get (s : fstream) (fs : FileSystem) : fstream × Option Char :=
  if !s.good then ({ s with failbit := true, gcount := 0 }, none)
  else
    match s.unread fs with
    | [] => ({ s with eofbit := true, failbit := true, gcount := 0 }, none)
    | c :: _ => ({ s.bump fs 1 with gcount := 1 }, some c)

/-- Member `read(buffer, count)`: up to `count` characters; `eofbit` and
`failbit` are set when fewer than `count` were available.  The number of
characters stored is left in `gcount`. -/
def read (s : fstream) (fs : FileSystem) (count : Nat) : fstream × Bytes :=
  if !s.good then ({ s with failbit := true, gcount := 0 }, [])
  else
    let got := (s.unread fs).take count
    let s1 := { s.bump fs got.length with gcount := got.length }
    if got.length < count then ({ s1 with eofbit := true, failbit := true }, got)
    else (s1, got)

/-- The call `std::getline(stream, line)`: with a failing sentry `line` is left
alone (`none`) and `failbit` set.  Otherwise characters are extracted up to
and including the next terminator, which is not stored; reaching the end of
the file sets `eofbit`, and extracting nothing at all sets `failbit`. -/
def getline (s : fstream) (fs : FileSystem) : fstream × Option Bytes :=
  if !s.good then ({ s with failbit := true }, none)
  else
    let u := s.unread fs
    let line := u.takeWhile (fun c => c != NL)
    if line.length < u.length then
      (s.bump fs (line.length + 1), some line)
    else
      ({ s.bump fs line.length with eofbit := true, failbit := line.isEmpty }, some line)

/-- Member `seekg(0, std::ios::beg)`: clears `eofbit`; unless the stream fails,
the buffer writes its put area out, drops its get area and moves to the start
of the file; a closed buffer cannot seek and sets `failbit`. -/
def seekg0 (s : fstream) (fs : FileSystem) : fstream × FileSystem :=
  let s1 := { s with eofbit := false }
  if s1.fail then (s1, fs)
  else if s1.is_open then
    let r := s1.sync fs
    ({ r.1 with pos := 0, gbuf := [] }, r.2)
  else ({ s1 with failbit := true }, fs)

end fstream

/-! ## The Lua side -/

/-- Values on the Lua stack, as far as the exported functions look at them.
A number stands for an integral Lua number. -/
inductive LuaValue
  | nil
  | boolean (b : Bool)
  | number (n : Int)
  | string (s : Bytes)
  | userdata (addr : Nat)
deriving DecidableEq, Repr

/-- One block handed out by `lua_newuserdata`, holding the `std::fstream`
constructed in it, and the name of the metatable attached to it. -/
structure Userdata where
  obj : fstream
  metatable : Option String
deriving DecidableEq, Repr

/-- The part of the Lua state and of the process that the functions work on:
the stack of the running C function (index 1 first), the userdata blocks (the
address of a block is its index), the file system, `junk`, the indeterminate
value found in an uninitialised `char` local, and `memory`, the size in bytes
of the largest block the allocator can still provide. -/
structure lua_State where
  stack : List LuaValue
  heap : List Userdata
  fs : FileSystem
  junk : Char
  memory : Nat

/-- How a call of an exported C function ends: it returns the number of
results it left on top of the stack, it raises a Lua error (`luaL_error`), a
C++ exception leaves it, it dereferences a pointer that is not a live
`std::fstream` (`undefined`), or it does not return. -/
inductive Outcome
  | ret (n : Nat)
  | error (msg : String)
  | exception (what : String)
  | undefined
  | diverges
deriving DecidableEq, Repr

/-- Value at a positive stack index; `none` is `LUA_TNONE`. -/
def lua_index (L : lua_State) (i : Nat) : Option LuaValue :=
  if i = 0 then none else L.stack[i - 1]?

/-- Push one value. -/
def lua_push (L : lua_State) (v : LuaValue) : lua_State :=
  { L with stack := L.stack ++ [v] }

/-- The call `lua_pop(L, -1)`, which is `lua_settop(L, 0)`: the stack is emptied. -/
def lua_pop_minus1 (L : lua_State) : lua_State := { L with stack := [] }

/-- The call `lua_pushvalue(L, i)`. -/
def lua_pushvalue (L : lua_State) (i : Nat) : lua_State :=
  lua_push L ((lua_index L i).getD LuaValue.nil)

/-- The call `lua_pushnil(L)`. -/
def lua_pushnil (L : lua_State) : lua_State := lua_push L LuaValue.nil

/-- The call `lua_pushlstring(L, p, n)` with the `n` bytes at `p` given as `s`. -/
def lua_pushlstring (L : lua_State) (s : Bytes) : lua_State := lua_push L (LuaValue.string s)

/-- The call `lua_pushstring(L, p)`: the C string at `p`, which ends at the first `NUL`. -/
def lua_pushstring (L : lua_State) (s : Bytes) : lua_State :=
  lua_push L (LuaValue.string (c_str s))

/-- The call `lua_touserdata(L, i)`: the address of the block, `none` for `NULL`. -/
def lua_touserdata (L : lua_State) (i : Nat) : Option Nat :=
  match lua_index L i with
  | some (LuaValue.userdata a) => some a
  | _ => none

/-- The call `lua_isuserdata(L, i)`. -/
def lua_isuserdata (L : lua_State) (i : Nat) : Bool :=
  match lua_index L i with
  | some (LuaValue.userdata _) => true
  | _ => false

/-- The value on top of the stack: the result of a function that returned 1. -/
def lua_State.top (L : lua_State) : Option LuaValue := L.stack.getLast?

/-- Conversion of a Lua number to C `int`, taken modulo 2^32 into the signed range. -/
def toInt32 (n : Int) : Int := (n + 2 ^ 31) % 2 ^ 32 - 2 ^ 31

/-- The call `luaL_checkstring(L, i)`: the C string of a string argument (a
number is converted to its decimal text, which is what Lua prints for
integral numbers of up to 14 digits), an argument error otherwise. -/
def luaL_checkstring (L : lua_State) (i : Nat) : Except String Bytes :=
  match lua_index L i with
  | some (LuaValue.string s) => Except.ok (c_str s)
  | some (LuaValue.number n) => Except.ok (toString n).toList
  | _ => Except.error "bad argument (string expected)"

/-- The call `luaL_optstring(L, i, d)`: `d` when the argument is absent or nil. -/
def luaL_optstring (L : lua_State) (i : Nat) (d : Bytes) : Except String Bytes :=
  match lua_index L i with
  | none => Except.ok d
  | some LuaValue.nil => Except.ok d
  | some _ => luaL_checkstring L i

/-- The call `luaL_optint(L, i, d)`: `d` when the argument is absent or nil, the
number converted to `int` otherwise (a string counts when it is a decimal
integer numeral). -/
def luaL_optint (L : lua_State) (i : Nat) (d : Int) : Except String Int :=
  match lua_index L i with
  | none => Except.ok d
  | some LuaValue.nil => Except.ok d
  | some (LuaValue.number n) => Except.ok (toInt32 n)
  | some (LuaValue.string s) =>
    match (String.mk s).toInt? with
    | some n => Except.ok (toInt32 n)
    | none => Except.error "bad argument (number expected)"
  | some _ => Except.error "bad argument (number expected)"

/-- The `std::fstream` a handle points at; `none` when the pointer is `NULL`
or does not point at a userdata block. -/
def deref (L : lua_State) (handle : Option Nat) : Option fstream :=
  match handle with
  | none => none
  | some a => L.heap[a]?.map Userdata.obj

/-- Store the new state of the stream a handle points at, and of the file system. -/
def store (L : lua_State) (handle : Option Nat) (r : fstream × FileSystem) : lua_State :=
  match handle with
  | none => L
  | some a =>
    match L.heap[a]? with
    | none => L
    | some u => { L with heap := L.heap.set a { u with obj := r.1 }, fs := r.2 }

/-! ## namespace File (LuaExport.cpp) -/

/-- The result of the mode analysis at the head of `Open`: the `openmode`, or
the message of the error raised. -/
def Open.option (mode options : Bytes) : Except String openmode :=
  if mode = "r".toList then
    Except.ok { in_ := true, out := false, app := false, trunc := false }
  else if mode = "w".toList then
    if options = "app".toList then
      Except.ok { in_ := false, out := true, app := true, trunc := false }
    else if options = "trunc".toList then
      Except.ok { in_ := false, out := true, app := false, trunc := true }
    else
      Except.error ("bzfile Error: invalid open option \"" ++ String.mk options ++ "\"")
  else
    Except.error ("bzfile Error: invalid open mode \"" ++ String.mk mode ++ "\"")

/-- The function `File::Open`. -/
def Open (L : lua_State) : lua_State × Outcome :=
  match luaL_checkstring L 1 with
  | Except.error e => (L, Outcome.error e)
  | Except.ok fileName =>
    match luaL_optstring L 2 "r".toList with
    | Except.error e => (L, Outcome.error e)
    | Except.ok mode =>
      match luaL_optstring L 3 "app".toList with
      | Except.error e => (L, Outcome.error e)
      | Except.ok options =>
        match Open.option mode options with
        | Except.error e => (lua_pop_minus1 L, Outcome.error e)
        | Except.ok option =>
          -- lua_newuserdata, then placement new of the stream in the block
          let buffer := L.heap.length
          let r := fstream.ctor L.fs fileName option
          let L1 : lua_State :=
            { L with stack := L.stack ++ [LuaValue.userdata buffer],
                     heap := L.heap ++ [{ obj := r.1, metatable := none }],
                     fs := r.2 }
          -- luaL_getmetatable, lua_setmetatable on the block at index -2
          let L2 : lua_State :=
            { L1 with heap := L.heap ++ [{ obj := r.1, metatable := some "FileMetatable" }] }
          (L2, Outcome.ret 1)

/-- The function `File::Cleanup`, the `__gc` metamethod. -/
def Cleanup (L : lua_State) : lua_State × Outcome :=
  let handle := lua_touserdata L 1
  match deref L handle with
  | none => (L, Outcome.undefined)
  | some s => (store L handle (s.dtor L.fs), Outcome.ret 0)

/-- The function `File::Write`. -/
def Write (L : lua_State) : lua_State × Outcome :=
  let handle := lua_touserdata L 1
  match luaL_checkstring L 2 with
  | Except.error e => (L, Outcome.error e)
  | Except.ok content =>
    match deref L handle with
    | none => (L, Outcome.undefined)
    | some s =>
      let L1 := store L handle (s.put content, L.fs)
      (lua_pushvalue L1 1, Outcome.ret 1)

/-- The function `File::Writeln`. -/
def Writeln (L : lua_State) : lua_State × Outcome :=
  let handle := lua_touserdata L 1
  match luaL_checkstring L 2 with
  | Except.error e => (L, Outcome.error e)
  | Except.ok content =>
    match deref L handle with
    | none => (L, Outcome.undefined)
    | some s =>
      let L1 := store L handle ((s.put content).put [NL], L.fs)
      (lua_pushvalue L1 1, Outcome.ret 1)

/-- First check under `#ifdef _DEBUG` in `Read`, `Readln` and `Dump`:
`!lua_isuserdata(L, 1)`, only compiled when `DEBUG` holds. -/
def debugNotUserdata (DEBUG : Bool) (L : lua_State) : Bool :=
  DEBUG && !lua_isuserdata L 1

/-- Second check under `#ifdef _DEBUG` in `Read`, `Readln` and `Dump`:
`!handle->is_open()`, only compiled when `DEBUG` holds. -/
def debugNotOpen (DEBUG : Bool) (s : fstream) : Bool :=
  DEBUG && !s.is_open

/-- The function `File::Read`; `DEBUG` says whether `_DEBUG` is defined. -/
def Read (DEBUG : Bool) (L : lua_State) : lua_State × Outcome :=
  let handle := lua_touserdata L 1
  match luaL_optint L 2 1 with
  | Except.error e => (L, Outcome.error e)
  | Except.ok count =>
    if debugNotUserdata DEBUG L then (lua_pop_minus1 L, Outcome.error "not userdata")
    else
      match deref L handle with
      | none => (L, Outcome.undefined)
      | some s =>
        if debugNotOpen DEBUG s then (lua_pop_minus1 L, Outcome.error "not open")
        else if s.eof then (lua_pushnil L, Outcome.ret 1)
        else if count ≤ 1 then
          -- char c; handle->get(c); c keeps its old value when nothing is read
          let r := s.get L.fs
          let c := r.2.getD L.junk
          (lua_pushlstring (store L handle (r.1, L.fs)) [c], Outcome.ret 1)
        else if L.memory < count.toNat then
          -- std::vector<char> buffer(count): no block of count bytes is left
          (L, Outcome.exception "std::bad_alloc")
        else
          -- handle->read(buffer.data(), count)
          let r := s.read L.fs count.toNat
          let L1 := store L handle (r.1, L.fs)
          let bytesRead := r.1.gcount
          if bytesRead ≤ 0 then (lua_pop_minus1 L1, Outcome.error "zero bytes read")
          else (lua_pushlstring L1 (r.2.take bytesRead), Outcome.ret 1)

/-- The function `File::Readln`. -/
def Readln (DEBUG : Bool) (L : lua_State) : lua_State × Outcome :=
  let handle := lua_touserdata L 1
  if debugNotUserdata DEBUG L then (lua_pop_minus1 L, Outcome.error "not userdata")
  else
    match deref L handle with
    | none => (L, Outcome.undefined)
    | some s =>
      if debugNotOpen DEBUG s then (lua_pop_minus1 L, Outcome.error "not open")
      else if s.eof then (lua_pushnil L, Outcome.ret 1)
      else
        -- std::string line; std::getline(*handle, line);
        let r := s.getline L.fs
        let line := r.2.getD []
        (lua_pushstring (store L handle (r.1, L.fs)) line, Outcome.ret 1)

/-- The loop `while (std::getline(*handle, line)) content += line + NL` of
`Dump`, run for at most `fuel` calls of `getline`; `none` when the loop has
not ended by then. -/
def Dump.loop (fs : FileSystem) : Nat → fstream → Bytes → Option (fstream × Bytes)
  | 0, _, _ => none
  | fuel + 1, s, content =>
    let r := s.getline fs
    if r.1.fail then some (r.1, content)
    else Dump.loop fs fuel r.1 (content ++ (r.2.getD [] ++ [NL]))

/-- The function `File::Dump`.  The loop is given one call of `getline` for
every character left after the seek and one more. -/
def Dump (DEBUG : Bool) (L : lua_State) : lua_State × Outcome :=
  let handle := lua_touserdata L 1
  if debugNotUserdata DEBUG L then (lua_pop_minus1 L, Outcome.error "not userdata")
  else
    match deref L handle with
    | none => (L, Outcome.undefined)
    | some s =>
      if debugNotOpen DEBUG s then (lua_pop_minus1 L, Outcome.error "not open")
      else
        let r := s.clear.seekg0 L.fs
        match Dump.loop r.2 ((r.1.unread r.2).length + 1) r.1 [] with
        | none => (store L handle r, Outcome.diverges)
        | some r1 => (lua_pushstring (store L handle (r1.1, r.2)) r1.2, Outcome.ret 1)

/-- The function `File::Flush`. -/
def Flush (L : lua_State) : lua_State × Outcome :=
  let handle := lua_touserdata L 1
  match deref L handle with
  | none => (L, Outcome.undefined)
  | some s =>
    let L1 := store L handle (s.flush L.fs)
    (lua_pushvalue L1 1, Outcome.ret 1)

/-- The function `File::Close`. -/
def Close (L : lua_State) : lua_State × Outcome :=
  let handle := lua_touserdata L 1
  match deref L handle with
  | none => (L, Outcome.undefined)
  | some s => (store L handle (s.close L.fs), Outcome.ret 0)

/-! ## Calls from a script -/

/-- The operations a script can invoke on a handle, with their arguments. -/
inductive Op
  | Write (text : Bytes)
  | Writeln (text : Bytes)
  | Read (count : Option Int)
  | Readln
  | Dump
  | Flush
  | Close
deriving DecidableEq, Repr

/-- The stack a C function starts with when the script calls the operation as
a method of the handle at address `h`. -/
def Op.args (h : Nat) : Op → List LuaValue
  | Op.Write text => [LuaValue.userdata h, LuaValue.string text]
  | Op.Writeln text => [LuaValue.userdata h, LuaValue.string text]
  | Op.Read (some count) => [LuaValue.userdata h, LuaValue.number count]
  | Op.Read none => [LuaValue.userdata h]
  | _ => [LuaValue.userdata h]

/-- The C function the method table of `lua_Init` binds to the operation. -/
def Op.fn (DEBUG : Bool) : Op → lua_State → lua_State × Outcome
  | Op.Write _ => BzFile.Write
  | Op.Writeln _ => BzFile.Writeln
  | Op.Read _ => BzFile.Read DEBUG
  | Op.Readln => BzFile.Readln DEBUG
  | Op.Dump => BzFile.Dump DEBUG
  | Op.Flush => BzFile.Flush
  | Op.Close => BzFile.Close

/-- One method call on the handle at `h`: the function runs on a fresh stack
holding the arguments. -/
def call (DEBUG : Bool) (h : Nat) (op : Op) (L : lua_State) : lua_State × Outcome :=
  op.fn DEBUG { L with stack := op.args h }

/-- The single value a call returned, if it returned one. -/
def result (r : lua_State × Outcome) : Option LuaValue :=
  match r.2 with
  | Outcome.ret 1 => r.1.top
  | _ => none

/-- A sequence of method calls on the handle at `h`.  A call that raises an
error ends (the script may catch it) and the next call runs on the state it
left. -/
def run (DEBUG : Bool) (h : Nat) : List Op → lua_State → lua_State
  | [], L => L
  | op :: ops, L => run DEBUG h ops (call DEBUG h op L).1

/-- The collector finalising the block at `h`: `__gc`, bound to `Cleanup`. -/
def gc (h : Nat) (L : lua_State) : lua_State × Outcome :=
  Cleanup { L with stack := [LuaValue.userdata h] }

/-- The call `bzfile.Open(fileName, mode, options)` from a script. -/
def callOpen (fileName mode options : Bytes) (L : lua_State) : lua_State × Outcome :=
  Open { L with stack := [LuaValue.string fileName, LuaValue.string mode, LuaValue.string options] }

/-- The stream in the block at address `h`. -/
def lua_State.stream (L : lua_State) (h : Nat) : Option fstream :=
  L.heap[h]?.map Userdata.obj

/-! ## Arguments of `Open` -/

/-- The Lua value passed for an optional string argument: `nil` when it is omitted. -/
def argv : Option Bytes → LuaValue
  | none => LuaValue.nil
  | some s => LuaValue.string s

/-- The ways to call `Open` with a file name, an optional mode and optional
options: all three positions filled (`nil` for an omitted one, and possibly
further arguments), or the trailing omitted arguments left out. -/
def openStack (fileName : Bytes) (m o : Option Bytes) (extra : List LuaValue)
    (stack : List LuaValue) : Prop :=
  stack = LuaValue.string fileName :: argv m :: argv o :: extra
  ∨ (o = none ∧ stack = [LuaValue.string fileName, argv m])
  ∨ (m = none ∧ o = none ∧ stack = [LuaValue.string fileName])

/-- `Open` returns one value, a new handle: a userdata block is added at the
next free address, it holds the stream constructed for `fileName` with
`option` and carries the metatable, and the handle is pushed. -/
def Open.returnsHandle (L : lua_State) (fileName : Bytes) (option : openmode) : Prop :=
  (Open L).2 = Outcome.ret 1
  ∧ (Open L).1.stack = L.stack ++ [LuaValue.userdata L.heap.length]
  ∧ (Open L).1.heap = L.heap ++
      [{ obj := (fstream.ctor L.fs (c_str fileName) option).1, metatable := some "FileMetatable" }]
  ∧ (Open L).1.fs = (fstream.ctor L.fs (c_str fileName) option).2

/-- `Open` raises `msg` and leaves userdata blocks and file system as they were. -/
def Open.raises (L : lua_State) (msg : String) : Prop :=
  (Open L).2 = Outcome.error msg ∧ (Open L).1.heap = L.heap ∧ (Open L).1.fs = L.fs

/-! ## Texts that `Dump`, `Read` and `Readln` are compared with -/

/-- The text `Dump` assembles from a file content: every line followed by the
terminator, that is the content itself, with one `NL` appended when it is not
empty and does not end in `NL`. -/
def dumpText (content : Bytes) : Bytes :=
  if content = [] ∨ content.getLast? = some NL then content else content ++ [NL]

/-- The script loop `Read(1)` issued `n` times on the handle at `h`: the
concatenation of the strings returned, `none` as soon as a call returns
something else. -/
def readBytes (DEBUG : Bool) (h : Nat) : Nat → lua_State → Option Bytes × lua_State
  | 0, L => (some [], L)
  | n + 1, L =>
    let r := call DEBUG h (Op.Read (some 1)) L
    match result r with
    | some (LuaValue.string b) =>
      let q := readBytes DEBUG h n r.1
      (q.1.map (fun rest => b ++ rest), q.2)
    | _ => (none, r.1)

/-- The script loop `Read(1)` repeated until it returns nil, at most `fuel`
calls: the concatenation of the strings returned before the nil; `none` when
a call raises an error or no nil has come after `fuel` calls. -/
def readUntilNil (DEBUG : Bool) (h : Nat) : Nat → lua_State → Option Bytes
  | 0, _ => none
  | fuel + 1, L =>
    let r := call DEBUG h (Op.Read (some 1)) L
    match result r with
    | some LuaValue.nil => some []
    | some (LuaValue.string b) => (readUntilNil DEBUG h fuel r.1).map (fun rest => b ++ rest)
    | _ => none

/-- A method call `self:op(...)` where `self` is the value a previous call
returned: it reaches the C function when `self` is a handle. -/
def callOn (DEBUG : Bool) (self : Option LuaValue) (op : Op) (L : lua_State) :
    lua_State × Outcome :=
  match self with
  | some (LuaValue.userdata h) => call DEBUG h op L
  | _ => (L, Outcome.error "attempt to index a value that is not a handle")

/-! ## Concrete states -/

/-- A file system with the single file `f` holding `content`; file buffers
fetch 4096 bytes at a time. -/
def oneFile (content : Bytes) : FileSystem :=
  { files := fun n => if n = "f".toList then some content else none,
    denied := fun _ => false,
    bufsiz := 4096 }

/-- A Lua state without handles over `oneFile content`; an uninitialised
`char` holds `junk`, and blocks of up to 1 GiB can be allocated. -/
def start (content : Bytes) (junk : Char) : lua_State :=
  { stack := [], heap := [], fs := oneFile content, junk := junk, memory := 1073741824 }

/-- The state after `bzfile.Open("f", "r")` in `start content junk`: the new
handle is at address 0. -/
def openedRead (content : Bytes) (junk : Char) : lua_State :=
  (callOpen "f".toList "r".toList "app".toList (start content junk)).1

/-- The state after `bzfile.Open("f", "w", "trunc")` in `start content junk`:
the new handle is at address 0. -/
def openedWrite (content : Bytes) (junk : Char) : lua_State :=
  (callOpen "f".toList "w".toList "trunc".toList (start content junk)).1

/-- The state after `bzfile.Open("g", "r")` in `start content junk`, where no
file `g` exists: the handle at address 0 holds a stream that was never opened. -/
def openedMissing (content : Bytes) (junk : Char) : lua_State :=
  (callOpen "g".toList "r".toList "app".toList (start content junk)).1

/-- The state reached from `openedRead` on a file holding `abc`, `NL`, `def`,
`NL` as follows: the handle at address 0 reads the first line with `Readln`;
the file is then opened with `"w"`, `"trunc"` (handle at address 1),
`123456789` is written through that handle and it is closed. -/
def staleBuffer (junk : Char) : lua_State :=
  run false 1 [Op.Write "123456789".toList, Op.Close]
    (callOpen "f".toList "w".toList "trunc".toList
      (run false 0 [Op.Readln] (openedRead "abc\ndef\n".toList junk))).1

/-! # Theorems -/

/-! ### Stack and heap access on a method call -/

theorem stream_eq_some {L : lua_State} {h : Nat} {s : fstream} (hs : L.stream h = some s) :
    ∃ u, L.heap[h]? = some u ∧ u.obj = s := by
  simpa [lua_State.stream] using hs

theorem store_stream (L : lua_State) (h : Nat) (s : fstream) (hs : L.stream h = some s)
    (r : fstream × FileSystem) :
    (store L (some h) r).stream h = some r.1 ∧ (store L (some h) r).fs = r.2
      ∧ (store L (some h) r).stack = L.stack ∧ (store L (some h) r).junk = L.junk
      ∧ (store L (some h) r).heap.length = L.heap.length := by
  obtain ⟨u, hu, -⟩ := stream_eq_some hs
  have hlt : h < L.heap.length := (List.getElem?_eq_some.1 hu).1
  simp [store, hu, lua_State.stream, List.getElem?_set, hlt]

theorem deref_stack {L : lua_State} {h : Nat} {s : fstream} (hs : L.stream h = some s)
    (stack : List LuaValue) :
    deref { L with stack := stack } (some h) = some s := by
  simpa [deref, lua_State.stream] using hs

@[simp] theorem stream_push (L : lua_State) (v : LuaValue) (h : Nat) :
    (lua_push L v).stream h = L.stream h := rfl

@[simp] theorem stream_pop (L : lua_State) (h : Nat) :
    (lua_pop_minus1 L).stream h = L.stream h := rfl

@[simp] theorem stream_stack (L : lua_State) (stack : List LuaValue) (h : Nat) :
    lua_State.stream { L with stack := stack } h = L.stream h := rfl

@[simp] theorem heap_push (L : lua_State) (v : LuaValue) : (lua_push L v).heap = L.heap := rfl

@[simp] theorem fs_push (L : lua_State) (v : LuaValue) : (lua_push L v).fs = L.fs := rfl

@[simp] theorem fs_pop (L : lua_State) : (lua_pop_minus1 L).fs = L.fs := rfl

@[simp] theorem top_push (L : lua_State) (v : LuaValue) : (lua_push L v).top = some v := by
  simp [lua_push, lua_State.top]

/-! ### The calls on a live handle, in terms of the stream operations -/

section calls

variable {L : lua_State} {h : Nat} {s : fstream} (DEBUG : Bool)

theorem call_Write (hs : L.stream h = some s) (text : Bytes) :
    (call DEBUG h (Op.Write text) L).2 = Outcome.ret 1
    ∧ result (call DEBUG h (Op.Write text) L) = some (LuaValue.userdata h)
    ∧ (call DEBUG h (Op.Write text) L).1.stream h = some (s.put (c_str text))
    ∧ (call DEBUG h (Op.Write text) L).1.fs = L.fs
    ∧ (call DEBUG h (Op.Write text) L).1.heap.length = L.heap.length := by
  have hd := deref_stack hs [LuaValue.userdata h, LuaValue.string text]
  have hst := store_stream { L with stack := [LuaValue.userdata h, LuaValue.string text] } h s hs (s.put (c_str text), L.fs)
  simp [call, Op.fn, Op.args, Write, lua_touserdata, lua_index, luaL_checkstring, hd, result,
    lua_pushvalue, hst]

theorem call_Writeln (hs : L.stream h = some s) (text : Bytes) :
    (call DEBUG h (Op.Writeln text) L).2 = Outcome.ret 1
    ∧ result (call DEBUG h (Op.Writeln text) L) = some (LuaValue.userdata h)
    ∧ (call DEBUG h (Op.Writeln text) L).1.stream h = some ((s.put (c_str text)).put [NL])
    ∧ (call DEBUG h (Op.Writeln text) L).1.fs = L.fs
    ∧ (call DEBUG h (Op.Writeln text) L).1.heap.length = L.heap.length := by
  have hd := deref_stack hs [LuaValue.userdata h, LuaValue.string text]
  have hst := store_stream { L with stack := [LuaValue.userdata h, LuaValue.string text] } h s hs ((s.put (c_str text)).put [NL], L.fs)
  simp [call, Op.fn, Op.args, Writeln, lua_touserdata, lua_index, luaL_checkstring, hd, result,
    lua_pushvalue, hst]

theorem call_Flush (hs : L.stream h = some s) :
    (call DEBUG h Op.Flush L).2 = Outcome.ret 1
    ∧ result (call DEBUG h Op.Flush L) = some (LuaValue.userdata h)
    ∧ (call DEBUG h Op.Flush L).1.stream h = some (s.flush L.fs).1
    ∧ (call DEBUG h Op.Flush L).1.fs = (s.flush L.fs).2
    ∧ (call DEBUG h Op.Flush L).1.heap.length = L.heap.length := by
  have hd := deref_stack hs [LuaValue.userdata h]
  have hst := store_stream { L with stack := [LuaValue.userdata h] } h s hs (s.flush L.fs)
  simp [call, Op.fn, Op.args, Flush, lua_touserdata, lua_index, hd, result,
    lua_pushvalue, hst]

theorem call_Close (hs : L.stream h = some s) :
    (call DEBUG h Op.Close L).2 = Outcome.ret 0
    ∧ (call DEBUG h Op.Close L).1.stream h = some (s.close L.fs).1
    ∧ (call DEBUG h Op.Close L).1.fs = (s.close L.fs).2 := by
  have hd := deref_stack hs [LuaValue.userdata h]
  have hst := store_stream { L with stack := [LuaValue.userdata h] } h s hs (s.close L.fs)
  simp [call, Op.fn, Op.args, Close, lua_touserdata, lua_index, hd, hst]

theorem gc_eq (hs : L.stream h = some s) :
    (gc h L).2 = Outcome.ret 0
    ∧ (gc h L).1.stream h = some (s.dtor L.fs).1
    ∧ (gc h L).1.fs = (s.dtor L.fs).2 := by
  have hd := deref_stack hs [LuaValue.userdata h]
  have hst := store_stream { L with stack := [LuaValue.userdata h] } h s hs (s.dtor L.fs)
  simp [gc, Cleanup, lua_touserdata, lua_index, hd, hst]

theorem call_Read (hs : L.stream h = some s) (n : Option Int) :
    call DEBUG h (Op.Read n) L =
      (let L0 : lua_State := { L with stack := Op.args h (Op.Read n) }
       let count : Int := (n.map toInt32).getD 1
       if debugNotOpen DEBUG s then (lua_pop_minus1 L0, Outcome.error "not open")
       else if s.eof then (lua_pushnil L0, Outcome.ret 1)
       else if count ≤ 1 then
         (lua_pushlstring (store L0 (some h) ((s.get L.fs).1, L.fs)) [(s.get L.fs).2.getD L.junk],
           Outcome.ret 1)
       else if L.memory < count.toNat then (L0, Outcome.exception "std::bad_alloc")
       else if (s.read L.fs count.toNat).1.gcount ≤ 0 then
         (lua_pop_minus1 (store L0 (some h) ((s.read L.fs count.toNat).1, L.fs)),
           Outcome.error "zero bytes read")
       else
         (lua_pushlstring (store L0 (some h) ((s.read L.fs count.toNat).1, L.fs))
           ((s.read L.fs count.toNat).2.take (s.read L.fs count.toNat).1.gcount), Outcome.ret 1)) := by
  cases n with
  | none =>
    have hd := deref_stack hs [LuaValue.userdata h]
    simp [call, Op.fn, Op.args, Read, lua_touserdata, lua_index, luaL_optint, hd,
      debugNotUserdata, lua_isuserdata]
  | some n =>
    have hd := deref_stack hs [LuaValue.userdata h, LuaValue.number n]
    simp [call, Op.fn, Op.args, Read, lua_touserdata, lua_index, luaL_optint, hd,
      debugNotUserdata, lua_isuserdata]

theorem call_Readln (hs : L.stream h = some s) :
    call DEBUG h Op.Readln L =
      (let L0 : lua_State := { L with stack := [LuaValue.userdata h] }
       if debugNotOpen DEBUG s then (lua_pop_minus1 L0, Outcome.error "not open")
       else if s.eof then (lua_pushnil L0, Outcome.ret 1)
       else (lua_pushstring (store L0 (some h) ((s.getline L.fs).1, L.fs))
              ((s.getline L.fs).2.getD []), Outcome.ret 1)) := by
  have hd := deref_stack hs [LuaValue.userdata h]
  simp [call, Op.fn, Op.args, Readln, lua_touserdata, lua_index, hd,
    debugNotUserdata, lua_isuserdata]

theorem call_Dump (hs : L.stream h = some s) :
    call DEBUG h Op.Dump L =
      (let L0 : lua_State := { L with stack := [LuaValue.userdata h] }
       let r := s.clear.seekg0 L.fs
       if debugNotOpen DEBUG s then (lua_pop_minus1 L0, Outcome.error "not open")
       else
         match Dump.loop r.2 ((r.1.unread r.2).length + 1) r.1 [] with
         | none => (store L0 (some h) r, Outcome.diverges)
         | some r1 => (lua_pushstring (store L0 (some h) (r1.1, r.2)) r1.2, Outcome.ret 1)) := by
  have hd := deref_stack hs [LuaValue.userdata h]
  simp [call, Op.fn, Op.args, Dump, lua_touserdata, lua_index, hd,
    debugNotUserdata, lua_isuserdata]

end calls

/-! ### Which stream operations touch the open flag and the release count -/

namespace fstream

variable (s : fstream) (fs : FileSystem)

@[simp] theorem bump_is_open (k : Nat) : (s.bump fs k).is_open = s.is_open := by
  unfold bump; split_ifs <;> rfl

@[simp] theorem bump_released (k : Nat) : (s.bump fs k).released = s.released := by
  unfold bump; split_ifs <;> rfl

@[simp] theorem bump_mode (k : Nat) : (s.bump fs k).mode = s.mode := by
  unfold bump; split_ifs <;> rfl

@[simp] theorem bump_fileName (k : Nat) : (s.bump fs k).fileName = s.fileName := by
  unfold bump; split_ifs <;> rfl

@[simp] theorem bump_eofbit (k : Nat) : (s.bump fs k).eofbit = s.eofbit := by
  unfold bump; split_ifs <;> rfl

@[simp] theorem bump_failbit (k : Nat) : (s.bump fs k).failbit = s.failbit := by
  unfold bump; split_ifs <;> rfl

@[simp] theorem bump_badbit (k : Nat) : (s.bump fs k).badbit = s.badbit := by
  unfold bump; split_ifs <;> rfl

@[simp] theorem bump_pos (k : Nat) : (s.bump fs k).pos = s.pos + k := by
  unfold bump; split_ifs <;> rfl

@[simp] theorem bump_good (k : Nat) : (s.bump fs k).good = s.good := by
  simp [good]

@[simp] theorem bump_fail (k : Nat) : (s.bump fs k).fail = s.fail := by
  simp [fail]

@[simp] theorem bump_content (k : Nat) (fs2 : FileSystem) :
    (s.bump fs k).content fs2 = s.content fs2 := by
  simp [content]

@[simp] theorem put_is_open (t : Bytes) : (s.put t).is_open = s.is_open := by
  unfold put; split_ifs <;> rfl

@[simp] theorem put_released (t : Bytes) : (s.put t).released = s.released := by
  unfold put; split_ifs <;> rfl

@[simp] theorem get_is_open : (s.get fs).1.is_open = s.is_open := by
  unfold get; split_ifs
  · rfl
  · split <;> simp

@[simp] theorem get_released : (s.get fs).1.released = s.released := by
  unfold get; split_ifs
  · rfl
  · split <;> simp

@[simp] theorem read_is_open (n : Nat) : (s.read fs n).1.is_open = s.is_open := by
  unfold read; simp only []; split_ifs <;> simp

@[simp] theorem read_released (n : Nat) : (s.read fs n).1.released = s.released := by
  unfold read; simp only []; split_ifs <;> simp

@[simp] theorem getline_is_open : (s.getline fs).1.is_open = s.is_open := by
  unfold getline; simp only []; split_ifs <;> simp

@[simp] theorem getline_released : (s.getline fs).1.released = s.released := by
  unfold getline; simp only []; split_ifs <;> simp

@[simp] theorem sync_is_open : (s.sync fs).1.is_open = s.is_open := by
  unfold sync; simp only []; split_ifs <;> rfl

@[simp] theorem sync_released : (s.sync fs).1.released = s.released := by
  unfold sync; simp only []; split_ifs <;> rfl

@[simp] theorem flush_is_open : (s.flush fs).1.is_open = s.is_open := by
  unfold flush; split_ifs <;> simp

@[simp] theorem flush_released : (s.flush fs).1.released = s.released := by
  unfold flush; split_ifs <;> simp

@[simp] theorem clear_is_open : s.clear.is_open = s.is_open := rfl

@[simp] theorem clear_released : s.clear.released = s.released := rfl

@[simp] theorem seekg0_is_open : (s.seekg0 fs).1.is_open = s.is_open := by
  unfold seekg0; simp only []; split_ifs <;> simp

@[simp] theorem seekg0_released : (s.seekg0 fs).1.released = s.released := by
  unfold seekg0; simp only []; split_ifs <;> simp

end fstream

theorem Dump.loop_is_open (fs : FileSystem) (fuel : Nat) (s : fstream) (acc : Bytes)
    (r : fstream × Bytes) (h : Dump.loop fs fuel s acc = some r) :
    r.1.is_open = s.is_open ∧ r.1.released = s.released := by
  induction fuel generalizing s acc with
  | zero => simp [Dump.loop] at h
  | succ fuel ih =>
    simp only [Dump.loop] at h
    split_ifs at h with hf
    · cases h; simp
    · have := ih _ _ h
      simpa using this

/-! ### Release of the operating-system stream -/

theorem call_keeps (DEBUG : Bool) {L : lua_State} {h : Nat} {s : fstream}
    (hs : L.stream h = some s) (op : Op) (hop : op ≠ Op.Close) :
    ∃ s', (call DEBUG h op L).1.stream h = some s'
      ∧ s'.is_open = s.is_open ∧ s'.released = s.released := by
  cases op with
  | Write text => exact ⟨_, (call_Write DEBUG hs text).2.2.1, by simp, by simp⟩
  | Writeln text => exact ⟨_, (call_Writeln DEBUG hs text).2.2.1, by simp, by simp⟩
  | Flush => exact ⟨_, (call_Flush DEBUG hs).2.2.1, by simp, by simp⟩
  | Close => exact absurd rfl hop
  | Read n =>
    rw [call_Read DEBUG hs n]
    simp only []
    split_ifs
    · exact ⟨s, by simpa using hs, rfl, rfl⟩
    · exact ⟨s, by simpa [lua_pushnil] using hs, rfl, rfl⟩
    · exact ⟨_, by simpa [lua_pushlstring] using (store_stream { L with stack := Op.args h (Op.Read n) } h s hs _).1, by simp, by simp⟩
    · exact ⟨s, by simpa using hs, rfl, rfl⟩
    · exact ⟨_, by simpa using (store_stream { L with stack := Op.args h (Op.Read n) } h s hs _).1, by simp, by simp⟩
    · exact ⟨_, by simpa [lua_pushlstring] using (store_stream { L with stack := Op.args h (Op.Read n) } h s hs _).1, by simp, by simp⟩
  | Readln =>
    rw [call_Readln DEBUG hs]
    simp only []
    split_ifs
    · exact ⟨s, by simpa using hs, rfl, rfl⟩
    · exact ⟨s, by simpa [lua_pushnil] using hs, rfl, rfl⟩
    · exact ⟨_, by simpa [lua_pushstring] using (store_stream { L with stack := [LuaValue.userdata h] } h s hs _).1, by simp, by simp⟩
  | Dump =>
    rw [call_Dump DEBUG hs]
    simp only []
    split_ifs
    · exact ⟨s, by simpa using hs, rfl, rfl⟩
    · cases hl : Dump.loop (s.clear.seekg0 L.fs).2
          (((s.clear.seekg0 L.fs).1.unread (s.clear.seekg0 L.fs).2).length + 1)
          (s.clear.seekg0 L.fs).1 [] with
      | none =>
        exact ⟨_, by simpa using (store_stream { L with stack := [LuaValue.userdata h] } h s hs _).1, by simp, by simp⟩
      | some r1 =>
        have hk := Dump.loop_is_open _ _ _ _ _ hl
        refine ⟨r1.1, by simpa [lua_pushstring] using (store_stream { L with stack := [LuaValue.userdata h] } h s hs _).1, ?_, ?_⟩
        · simpa using hk.1
        · simpa using hk.2

theorem close_is_open (s : fstream) (fs : FileSystem) : (s.close fs).1.is_open = false := by
  unfold fstream.close; split_ifs with ho
  · rfl
  · simpa using ho

theorem close_released (s : fstream) (fs : FileSystem) :
    (s.close fs).1.released = s.released + (if s.is_open = true then 1 else 0) := by
  unfold fstream.close; split_ifs <;> simp

theorem dtor_is_open (s : fstream) (fs : FileSystem) : (s.dtor fs).1.is_open = false := by
  unfold fstream.dtor; split_ifs with ho
  · rfl
  · simpa using ho

theorem dtor_released (s : fstream) (fs : FileSystem) :
    (s.dtor fs).1.released = s.released + (if s.is_open = true then 1 else 0) := by
  unfold fstream.dtor; split_ifs <;> simp

theorem run_append (DEBUG : Bool) (h : Nat) (ops ops2 : List Op) (L : lua_State) :
    run DEBUG h (ops ++ ops2) L = run DEBUG h ops2 (run DEBUG h ops L) := by
  induction ops generalizing L with
  | nil => rfl
  | cons op ops ih => simp [run, ih]

theorem run_stream (DEBUG : Bool) (h : Nat) (ops : List Op) (L : lua_State) (s : fstream)
    (hs : L.stream h = some s) :
    ∃ s', (run DEBUG h ops L).stream h = some s'
      ∧ s'.is_open = (s.is_open && !decide (Op.Close ∈ ops))
      ∧ s'.released = s.released + (if s.is_open = true ∧ Op.Close ∈ ops then 1 else 0) := by
  induction ops generalizing L s with
  | nil => exact ⟨s, hs, by simp, by simp⟩
  | cons op ops ih =>
    by_cases hop : op = Op.Close
    · subst hop
      obtain ⟨-, h1, -⟩ := call_Close DEBUG hs
      obtain ⟨s', h2, h3, h4⟩ := ih (call DEBUG h Op.Close L).1 _ h1
      refine ⟨s', h2, ?_, ?_⟩
      · rw [h3, close_is_open]; simp
      · rw [h4, close_is_open, close_released]; simp
    · obtain ⟨s1, h1, ho, hr⟩ := call_keeps DEBUG hs op hop
      obtain ⟨s', h2, h3, h4⟩ := ih (call DEBUG h op L).1 _ h1
      refine ⟨s', h2, ?_, ?_⟩
      · rw [h3, ho]; simp [List.mem_cons, Ne.symm hop]
      · rw [h4, ho, hr]; simp [List.mem_cons, Ne.symm hop]

/-! ### Lines -/

theorem takeWhile_split (u : Bytes) :
    (((u.takeWhile (fun c => c != NL)).length < u.length →
        u = u.takeWhile (fun c => c != NL) ++ NL :: u.drop ((u.takeWhile (fun c => c != NL)).length + 1))
    ∧ (¬ (u.takeWhile (fun c => c != NL)).length < u.length →
        u.takeWhile (fun c => c != NL) = u)) := by
  induction u with
  | nil => simp
  | cons c cs ih =>
    by_cases hc : c = NL
    · subst hc
      simp [List.takeWhile]
    · have : (c != NL) = true := by simpa using hc
      simp only [List.takeWhile, this, List.length_cons, Nat.add_lt_add_iff_right,
        List.cons_append, List.drop_succ_cons, List.cons.injEq, true_and]
      exact ih

theorem dumpText_nil : dumpText [] = [] := by simp [dumpText]

theorem dumpText_line (l rest : Bytes) :
    dumpText (l ++ NL :: rest) = l ++ NL :: dumpText rest := by
  rcases List.eq_nil_or_concat rest with rfl | ⟨r, x, rfl⟩
  · simp [dumpText]
  · have e : l ++ NL :: (r ++ [x]) = (l ++ NL :: r) ++ [x] := by simp
    simp only [dumpText, e, List.getLast?_append, List.concat_eq_append]
    simp
    split_ifs <;> simp

theorem dumpText_last (l : Bytes) (hl : l ≠ []) (hn : ∀ c ∈ l, c ≠ NL) :
    dumpText l = l ++ [NL] := by
  rcases List.eq_nil_or_concat l with rfl | ⟨r, x, rfl⟩
  · exact absurd rfl hl
  · have : x ≠ NL := hn x (by simp)
    simp [dumpText, this]

/-! ### The stream primitives on a good stream -/

theorem good_iff (s : fstream) :
    s.good = true ↔ s.eofbit = false ∧ s.failbit = false ∧ s.badbit = false := by
  simp [fstream.good, and_assoc]

theorem blocks_enough (need block : Nat) (hb : 0 < block) :
    need ≤ (need + block - 1) / block * block := by
  have h := Nat.lt_mul_div_succ (need + block - 1) hb
  have e : block * ((need + block - 1) / block + 1)
      = (need + block - 1) / block * block + block := by
    rw [Nat.mul_add, Nat.mul_one, Nat.mul_comm]
  rw [e] at h
  omega

theorem take_drop_rest (rest : Bytes) (need m : Nat) (h1 : need ≤ rest.length)
    (h2 : need ≤ m) :
    (rest.take m).drop need ++ rest.drop (need + ((rest.take m).drop need).length)
      = rest.drop need := by
  have hlen : need + ((rest.take m).drop need).length = min m rest.length := by
    simp only [List.length_drop, List.length_take]
    omega
  rw [hlen]
  have hdrop : rest.drop (min m rest.length) = rest.drop m := by
    rcases Nat.le_total m rest.length with h | h
    · rw [Nat.min_eq_left h]
    · rw [Nat.min_eq_right h, List.drop_length, List.drop_eq_nil_of_le h]
  rw [hdrop]
  have hle : need ≤ (rest.take m).length := by
    simp only [List.length_take]; omega
  rw [← List.drop_append_of_le_length hle, List.take_append_drop]

theorem unread_bump (s : fstream) (fs : FileSystem) (k : Nat)
    (hk : k ≤ (s.unread fs).length) :
    (s.bump fs k).unread fs = (s.unread fs).drop k := by
  unfold fstream.unread at hk ⊢
  have hr : (s.bump fs k).readable = s.readable := by
    unfold fstream.bump; split_ifs <;> rfl
  rw [hr]
  by_cases hread : s.readable = true
  · simp only [hread, if_true] at hk ⊢
    have hc : (s.bump fs k).content fs = s.content fs := by
      unfold fstream.bump; split_ifs <;> rfl
    rw [hc]
    unfold fstream.bump
    split_ifs with hle
    · simp only [List.length_drop]
      rw [List.drop_append_of_le_length hle]
      congr 2
      omega
    · simp only []
      have hg : s.gbuf.length ≤ k := by omega
      rw [List.drop_append_eq_append_drop, List.drop_eq_nil_of_le hg, List.nil_append]
      have hb : 0 < max fs.bufsiz 1 := by omega
      have h2 := blocks_enough (k - s.gbuf.length) (max fs.bufsiz 1) hb
      have h1 : k - s.gbuf.length ≤ ((s.content fs).drop (s.pos + s.gbuf.length)).length := by
        simp only [List.length_append] at hk; omega
      have key := take_drop_rest ((s.content fs).drop (s.pos + s.gbuf.length))
        (k - s.gbuf.length) _ h1 h2
      rw [List.drop_drop] at key
      rw [← key]
      congr 2
      omega
  · simp [hread]


theorem unread_congr (t s : fstream) (fs : FileSystem) (h1 : t.is_open = s.is_open)
    (h2 : t.mode = s.mode) (h3 : t.fileName = s.fileName) (h4 : t.pos = s.pos)
    (h5 : t.gbuf = s.gbuf) :
    t.unread fs = s.unread fs := by
  simp [fstream.unread, fstream.readable, fstream.content, h1, h2, h3, h4, h5]

/-- As long as the get area holds what the file holds at the position of the
stream, the characters the stream delivers are those of the file from that
position on. -/
theorem unread_current (s : fstream) (fs : FileSystem) (hr : s.readable = true)
    (hc : s.bufferCurrent fs) :
    s.unread fs = (s.content fs).drop s.pos := by
  unfold fstream.bufferCurrent at hc
  simp only [fstream.unread, hr, if_true]
  conv_lhs => rw [hc]
  rw [List.length_take]
  have e : (s.content fs).drop (s.pos + min s.gbuf.length ((s.content fs).drop s.pos).length)
      = ((s.content fs).drop s.pos).drop s.gbuf.length := by
    rw [List.drop_drop]
    rcases Nat.le_total s.gbuf.length ((s.content fs).drop s.pos).length with h | h
    · rw [Nat.min_eq_left h, Nat.add_comm]
    · rw [Nat.min_eq_right h]
      rw [List.drop_eq_nil_of_le (by simp only [List.length_drop] at h ⊢; omega),
        List.drop_eq_nil_of_le (by simp only [List.length_drop] at h ⊢; omega)]
  rw [e, List.take_append_drop]

theorem takeWhile_line (line rest : Bytes) (hn : ∀ c ∈ line, c ≠ NL) :
    (line ++ NL :: rest).takeWhile (fun c => c != NL) = line := by
  induction line with
  | nil => simp [List.takeWhile]
  | cons c cs ih =>
    have hc : (c != NL) = true := by simpa using hn c (by simp)
    have ih2 := ih (fun d hd => hn d (by simp [hd]))
    simp only [List.cons_append, List.takeWhile_cons, hc, if_true, ih2]

theorem takeWhile_all (u : Bytes) (hn : ∀ c ∈ u, c ≠ NL) :
    u.takeWhile (fun c => c != NL) = u := by
  rw [List.takeWhile_eq_self_iff]
  intro c hc
  simpa using hn c hc

theorem getline_line (s : fstream) (fs : FileSystem) (line rest : Bytes) (hg : s.good = true)
    (hu : s.unread fs = line ++ NL :: rest) (hn : ∀ c ∈ line, c ≠ NL) :
    s.getline fs = (s.bump fs (line.length + 1), some line) := by
  simp [fstream.getline, hg, hu, takeWhile_line line rest hn]

theorem getline_last (s : fstream) (fs : FileSystem) (hg : s.good = true)
    (hn : ∀ c ∈ s.unread fs, c ≠ NL) :
    (s.getline fs).2 = some (s.unread fs)
    ∧ (s.getline fs).1.eofbit = true
    ∧ (s.getline fs).1.failbit = (s.unread fs).isEmpty
    ∧ (s.getline fs).1.badbit = s.badbit
    ∧ (s.getline fs).1.pos = s.pos + (s.unread fs).length
    ∧ (s.getline fs).1.mode = s.mode
    ∧ (s.getline fs).1.fileName = s.fileName := by
  simp [fstream.getline, hg, takeWhile_all _ hn]

theorem getline_not_good (s : fstream) (fs : FileSystem) (hg : s.good = false) :
    s.getline fs = ({ s with failbit := true }, none) := by
  simp [fstream.getline, hg]

theorem split_line (u : Bytes) :
    (∃ line rest, u = line ++ NL :: rest ∧ ∀ c ∈ line, c ≠ NL) ∨ (∀ c ∈ u, c ≠ NL) := by
  induction u with
  | nil => right; simp
  | cons c cs ih =>
    by_cases hc : c = NL
    · left; exact ⟨[], cs, by simp [hc], by simp⟩
    · rcases ih with ⟨line, rest, rfl, hn⟩ | hn
      · left
        refine ⟨c :: line, rest, by simp, ?_⟩
        intro d hd
        rcases List.mem_cons.1 hd with rfl | hd
        · exact hc
        · exact hn d hd
      · right
        intro d hd
        rcases List.mem_cons.1 hd with rfl | hd
        · exact hc
        · exact hn d hd

/-- The loop of `Dump` on a good stream: it ends within one call of `getline`
per unread character and one more, at the end of the unread text with
`eofbit` and `failbit` set, having appended the unread text line by line. -/
theorem Dump.loop_good (fs : FileSystem) (fuel : Nat) (s : fstream) (acc : Bytes)
    (hg : s.good = true) (hf : (s.unread fs).length < fuel) :
    ∃ t, Dump.loop fs fuel s acc = some (t, acc ++ dumpText (s.unread fs))
      ∧ t.eofbit = true ∧ t.failbit = true ∧ t.is_open = s.is_open ∧ t.mode = s.mode
      ∧ t.fileName = s.fileName ∧ t.pos = s.pos + (s.unread fs).length := by
  induction fuel generalizing s acc with
  | zero => exact absurd hf (Nat.not_lt_zero _)
  | succ fuel ih =>
    obtain ⟨he, hfl, hb⟩ := (good_iff s).1 hg
    rw [Dump.loop]
    rcases split_line (s.unread fs) with ⟨line, rest, hu, hn⟩ | hn
    · rw [getline_line s fs line rest hg hu hn]
      have hfail : (s.bump fs (line.length + 1)).fail = false := by
        simp [fstream.fail, hfl, hb]
      have hgood : (s.bump fs (line.length + 1)).good = true := by simpa using hg
      have hrest : (s.bump fs (line.length + 1)).unread fs = rest := by
        rw [unread_bump s fs _ (by rw [hu]; simp), hu]; simp
      simp only [hfail, Bool.false_eq_true, if_false, Option.getD_some]
      obtain ⟨t, h1, h2, h3, h4, h5, h6, h7⟩ :=
        ih (s.bump fs (line.length + 1)) (acc ++ (line ++ [NL])) hgood
          (by rw [hrest]; rw [hu] at hf; simp at hf; omega)
      refine ⟨t, ?_, h2, h3, by simpa using h4, by simpa using h5, by simpa using h6, ?_⟩
      · rw [h1, hrest, hu, dumpText_line]; simp
      · rw [h7, hrest, hu]; simp; omega
    · obtain ⟨g2, ge, gf, gb, gp, gm, gn⟩ := getline_last s fs hg hn
      by_cases hempty : s.unread fs = []
      · have hfail : (s.getline fs).1.fail = true := by simp [fstream.fail, gf, hempty]
        simp only [hfail, if_true]
        refine ⟨_, ?_, ge, by simp [gf, hempty], by simp, gm, gn, gp⟩
        simp [hempty, dumpText_nil]
      · have hfail : (s.getline fs).1.fail = false := by simp [fstream.fail, gf, gb, hb, hempty]
        simp only [hfail, Bool.false_eq_true, if_false, g2, Option.getD_some]
        cases fuel with
        | zero =>
          have : (s.unread fs).length = 0 := by omega
          exact absurd (List.length_eq_zero.1 this) hempty
        | succ fuel =>
          rw [Dump.loop, getline_not_good _ _ (by simp [fstream.good, ge])]
          refine ⟨{ (s.getline fs).1 with failbit := true }, ?_, ge, rfl, by simp, gm, gn, gp⟩
          simp [fstream.fail, dumpText_last _ hempty hn]

/-! ### `Dump`, `Read` and `Readln` on a read-mode handle -/

theorem seekg0_read (s : fstream) (fs : FileSystem) (hopen : s.is_open = true)
    (hout : s.mode.out = false) :
    s.clear.seekg0 fs
      = ({ s with eofbit := false, failbit := false, badbit := false, pos := 0, gbuf := [] },
          fs) := by
  simp [fstream.seekg0, fstream.clear, fstream.fail, hopen, fstream.sync, fstream.writable, hout]

theorem unread_start (s : fstream) (fs : FileSystem) (hopen : s.is_open = true)
    (hin : s.mode.in_ = true) :
    fstream.unread
      { s with eofbit := false, failbit := false, badbit := false, pos := 0, gbuf := [] } fs
      = s.content fs := by
  simp [fstream.unread, fstream.readable, fstream.clear, hopen, hin, fstream.content]

/-- The stream a read-mode handle is left with by `Dump`. -/
theorem Dump_read (DEBUG : Bool) {L : lua_State} {h : Nat} {s : fstream}
    (hs : L.stream h = some s) (hopen : s.is_open = true) (hin : s.mode.in_ = true)
    (hout : s.mode.out = false) :
    result (call DEBUG h Op.Dump L) = some (LuaValue.string (c_str (dumpText (s.content L.fs))))
    ∧ (∃ t, (call DEBUG h Op.Dump L).1.stream h = some t ∧ t.eofbit = true
        ∧ t.is_open = true ∧ t.mode = s.mode ∧ t.fileName = s.fileName)
    ∧ (call DEBUG h Op.Dump L).1.fs = L.fs := by
  obtain ⟨t, hl, t1, -, t3, t4, t5, -⟩ := Dump.loop_good L.fs ((s.content L.fs).length + 1)
    { s with eofbit := false, failbit := false, badbit := false, pos := 0, gbuf := [] } []
    (by simp [fstream.good]) (by rw [unread_start s L.fs hopen hin]; omega)
  rw [unread_start s L.fs hopen hin] at hl
  have hst := store_stream { L with stack := [LuaValue.userdata h] } h s hs
  rw [call_Dump DEBUG hs]
  have hd : debugNotOpen DEBUG s = false := by simp [debugNotOpen, hopen]
  simp only [hd, Bool.false_eq_true, if_false]
  rw [seekg0_read s L.fs hopen hout]
  simp only []
  rw [unread_start s L.fs hopen hin, hl]
  refine ⟨by simp [result, lua_pushstring], ⟨t, by simp [lua_pushstring, hst], t1, ?_, t4, t5⟩,
    by simp [lua_pushstring, hst]⟩
  rw [t3]; exact hopen

theorem Read_eof (DEBUG : Bool) {L : lua_State} {h : Nat} {s : fstream}
    (hs : L.stream h = some s) (hopen : s.is_open = true) (he : s.eofbit = true)
    (n : Option Int) :
    result (call DEBUG h (Op.Read n) L) = some LuaValue.nil
    ∧ (call DEBUG h (Op.Read n) L).1.stream h = some s := by
  rw [call_Read DEBUG hs n]
  simp [debugNotOpen, hopen, fstream.eof, he, result, lua_pushnil, hs]

theorem Readln_eof (DEBUG : Bool) {L : lua_State} {h : Nat} {s : fstream}
    (hs : L.stream h = some s) (hopen : s.is_open = true) (he : s.eofbit = true) :
    result (call DEBUG h Op.Readln L) = some LuaValue.nil
    ∧ (call DEBUG h Op.Readln L).1.stream h = some s := by
  rw [call_Readln DEBUG hs]
  simp [debugNotOpen, hopen, fstream.eof, he, result, lua_pushnil, hs]

theorem is_open_of_unread (s : fstream) (fs : FileSystem) (hu : s.unread fs ≠ []) :
    s.is_open = true ∧ s.mode.in_ = true := by
  unfold fstream.unread fstream.readable at hu
  by_cases hr : (s.is_open && s.mode.in_) = true
  · simpa using hr
  · simp [hr] at hu

/-- `Readln` on a good stream whose unread text holds a terminator. -/
theorem Readln_line (DEBUG : Bool) {L : lua_State} {h : Nat} {s : fstream}
    (hs : L.stream h = some s) (hg : s.good = true) (line rest : Bytes)
    (hu : s.unread L.fs = line ++ NL :: rest) (hn : ∀ c ∈ line, c ≠ NL) :
    result (call DEBUG h Op.Readln L) = some (LuaValue.string (c_str line))
    ∧ (call DEBUG h Op.Readln L).1.stream h = some (s.bump L.fs (line.length + 1))
    ∧ (call DEBUG h Op.Readln L).1.fs = L.fs := by
  have hopen := (is_open_of_unread s L.fs (by rw [hu]; simp)).1
  have he := ((good_iff s).1 hg).1
  have hst := store_stream { L with stack := [LuaValue.userdata h] } h s hs
  rw [call_Readln DEBUG hs, getline_line s L.fs line rest hg hu hn]
  simp [debugNotOpen, hopen, fstream.eof, he, result, lua_pushstring, hst]

/-- `Readln` on a good stream whose unread text holds no terminator. -/
theorem Readln_last (DEBUG : Bool) {L : lua_State} {h : Nat} {s : fstream}
    (hs : L.stream h = some s) (hopen : s.is_open = true) (hg : s.good = true)
    (hn : ∀ c ∈ s.unread L.fs, c ≠ NL) :
    result (call DEBUG h Op.Readln L) = some (LuaValue.string (c_str (s.unread L.fs)))
    ∧ (∃ t, (call DEBUG h Op.Readln L).1.stream h = some t ∧ t.eofbit = true
        ∧ t.is_open = true)
    ∧ (call DEBUG h Op.Readln L).1.fs = L.fs := by
  have he := ((good_iff s).1 hg).1
  have hst := store_stream { L with stack := [LuaValue.userdata h] } h s hs
  obtain ⟨g2, ge, -, -, -, -, -⟩ := getline_last s L.fs hg hn
  rw [call_Readln DEBUG hs]
  simp only [debugNotOpen, hopen, fstream.eof, he, Bool.not_true, Bool.and_false,
    Bool.false_eq_true, if_false, g2, Option.getD_some]
  refine ⟨by simp [result, lua_pushstring], ⟨_, by simp [lua_pushstring, hst], ge, ?_⟩,
    by simp [lua_pushstring, hst]⟩
  simp [hopen]

theorem read_good (s : fstream) (fs : FileSystem) (k : Nat) (hg : s.good = true) :
    (s.read fs k).2 = (s.unread fs).take k
    ∧ (s.read fs k).1.gcount = min k (s.unread fs).length
    ∧ (s.read fs k).1.pos = s.pos + min k (s.unread fs).length := by
  simp only [fstream.read, hg, Bool.not_true, Bool.false_eq_true, if_false]
  split_ifs <;> simp

/-- `Read` with a count above 1 for which the buffer can be allocated, on an
open, good stream. -/
theorem Read_many (DEBUG : Bool) {L : lua_State} {h : Nat} {s : fstream}
    (hs : L.stream h = some s) (hopen : s.is_open = true) (hg : s.good = true)
    (n : Int) (hcount : 1 < toInt32 n) (hmem : (toInt32 n).toNat ≤ L.memory) :
    (s.unread L.fs ≠ [] →
      result (call DEBUG h (Op.Read (some n)) L)
          = some (LuaValue.string ((s.unread L.fs).take (toInt32 n).toNat))
      ∧ ((call DEBUG h (Op.Read (some n)) L).1.stream h).map fstream.pos
          = some (s.pos + min (toInt32 n).toNat (s.unread L.fs).length))
    ∧ (s.unread L.fs = [] →
      (call DEBUG h (Op.Read (some n)) L).2 = Outcome.error "zero bytes read") := by
  have he := ((good_iff s).1 hg).1
  have hst := store_stream { L with stack := Op.args h (Op.Read (some n)) } h s hs
  have hc : ¬ toInt32 n ≤ 1 := by omega
  have hpos : 0 < (toInt32 n).toNat := by omega
  have hm : ¬ L.memory < (toInt32 n).toNat := by omega
  obtain ⟨hr2, hr1, hr3⟩ := read_good s L.fs (toInt32 n).toNat hg
  rw [call_Read DEBUG hs (some n)]
  simp only [Option.map_some', Option.getD_some, debugNotOpen, hopen, fstream.eof, he, hc,
    Bool.not_true, Bool.and_false, Bool.false_eq_true, if_false, hm]
  generalize (toInt32 n).toNat = k at *
  constructor
  · intro hu
    have hlen : 0 < (s.unread L.fs).length := List.length_pos.2 hu
    have hgc : ¬ (s.read L.fs k).1.gcount ≤ 0 := by rw [hr1]; omega
    simp only [hgc, if_false]
    constructor
    · simp [result, lua_pushlstring, hr2, hr1]
    · simp [lua_pushlstring, hst, hr3]
  · intro hu
    have hgc : (s.read L.fs k).1.gcount ≤ 0 := by rw [hr1, hu]; simp
    simp only [hgc, if_true]

/-- `Read(1)` on an open, good stream with an unread byte. -/
theorem Read_one (DEBUG : Bool) {L : lua_State} {h : Nat} {s : fstream}
    (hs : L.stream h = some s) (hg : s.good = true) (c : Char) (rest : Bytes)
    (hu : s.unread L.fs = c :: rest) :
    result (call DEBUG h (Op.Read (some 1)) L) = some (LuaValue.string [c])
    ∧ (∃ t, (call DEBUG h (Op.Read (some 1)) L).1.stream h = some t ∧ t.good = true
        ∧ t.unread L.fs = rest)
    ∧ (call DEBUG h (Op.Read (some 1)) L).1.fs = L.fs := by
  have hopen := (is_open_of_unread s L.fs (by rw [hu]; simp)).1
  have he := ((good_iff s).1 hg).1
  have hst := store_stream { L with stack := Op.args h (Op.Read (some 1)) } h s hs
  have h1 : toInt32 1 = 1 := by decide
  have hget : (s.get L.fs).2 = some c ∧ (s.get L.fs).1.good = true
      ∧ (s.get L.fs).1.unread L.fs = rest := by
    have hb := unread_bump s L.fs 1 (by rw [hu]; simp)
    rw [hu] at hb
    simp only [List.drop_succ_cons, List.drop_zero] at hb
    refine ⟨by simp [fstream.get, hg, hu], ?_, ?_⟩
    · simp only [fstream.get, hg, hu, Bool.not_true, Bool.false_eq_true, if_false]
      simpa [fstream.good] using hg
    · simp only [fstream.get, hg, hu, Bool.not_true, Bool.false_eq_true, if_false]
      rw [← hb]
      exact unread_congr _ _ _ rfl rfl rfl rfl rfl
  rw [call_Read DEBUG hs (some 1)]
  refine ⟨by simp [debugNotOpen, hopen, fstream.eof, he, h1, hget.1, result, lua_pushlstring],
    ⟨(s.get L.fs).1, by simp [debugNotOpen, hopen, fstream.eof, he, h1, lua_pushlstring, hst],
      hget.2.1, hget.2.2⟩,
    by simp [debugNotOpen, hopen, fstream.eof, he, h1, lua_pushlstring, hst]⟩

/-- The first `k` calls of `Read(1)` on a good stream with at least `k`
unread bytes return these bytes one by one. -/
theorem readBytes_take (DEBUG : Bool) (h : Nat) (k : Nat) (L : lua_State) (s : fstream)
    (hs : L.stream h = some s) (hg : s.good = true) (hk : k ≤ (s.unread L.fs).length) :
    (readBytes DEBUG h k L).1 = some ((s.unread L.fs).take k) := by
  induction k generalizing L s with
  | zero => simp [readBytes]
  | succ k ih =>
    cases hu : s.unread L.fs with
    | nil => rw [hu] at hk; simp at hk
    | cons c rest =>
      obtain ⟨r1, ⟨t, r2, hg2, hrest⟩, r3⟩ := Read_one DEBUG hs hg c rest hu
      rw [hu] at hk
      have := ih (call DEBUG h (Op.Read (some 1)) L).1 t r2 hg2
        (by rw [r3, hrest]; simpa using hk)
      rw [r3, hrest] at this
      simp [readBytes, r1, this]

theorem c_str_eq_self (x : Bytes) (hx : NUL ∉ x) : c_str x = x := by
  unfold c_str
  rw [List.takeWhile_eq_self_iff]
  intro c hc
  have : c ≠ NUL := fun e => hx (e ▸ hc)
  simpa using this

theorem dumpText_eq_self (x : Bytes) (hx : x = [] ∨ x.getLast? = some NL) : dumpText x = x := by
  simp [dumpText, hx]

/-! ### The arguments of `Open` -/

theorem Open_args (L : lua_State) (fileName : Bytes) (m o : Option Bytes)
    (extra : List LuaValue) (h : openStack fileName m o extra L.stack) :
    luaL_checkstring L 1 = Except.ok (c_str fileName)
    ∧ luaL_optstring L 2 "r".toList = Except.ok ((m.map c_str).getD "r".toList)
    ∧ luaL_optstring L 3 "app".toList = Except.ok ((o.map c_str).getD "app".toList) := by
  cases m <;> cases o <;> rcases h with h | ⟨ho, h⟩ | ⟨hm, ho, h⟩ <;>
    simp_all [luaL_checkstring, luaL_optstring, lua_index, argv]

theorem Open_eq (L : lua_State) (fileName mode options : Bytes)
    (h1 : luaL_checkstring L 1 = Except.ok fileName)
    (h2 : luaL_optstring L 2 "r".toList = Except.ok mode)
    (h3 : luaL_optstring L 3 "app".toList = Except.ok options) :
    Open L =
      match Open.option mode options with
      | Except.error e => (lua_pop_minus1 L, Outcome.error e)
      | Except.ok option =>
        ({ L with stack := L.stack ++ [LuaValue.userdata L.heap.length],
                  heap := L.heap ++ [{ obj := (fstream.ctor L.fs fileName option).1,
                                       metatable := some "FileMetatable" }],
                  fs := (fstream.ctor L.fs fileName option).2 }, Outcome.ret 1) := by
  simp only [Open, h1, h2, h3]

/-! ### Writing -/

theorem callOpen_ok (fileName mode options : Bytes) (L : lua_State) (option : openmode)
    (hopt : Open.option (c_str mode) (c_str options) = Except.ok option) :
    callOpen fileName mode options L =
      ({ L with stack := [LuaValue.string fileName, LuaValue.string mode, LuaValue.string options,
                          LuaValue.userdata L.heap.length],
                heap := L.heap ++ [{ obj := (fstream.ctor L.fs (c_str fileName) option).1,
                                     metatable := some "FileMetatable" }],
                fs := (fstream.ctor L.fs (c_str fileName) option).2 }, Outcome.ret 1) := by
  unfold callOpen
  rw [Open_eq _ (c_str fileName) (c_str mode) (c_str options)
    (by simp [luaL_checkstring, lua_index]) (by simp [luaL_optstring, luaL_checkstring, lua_index])
    (by simp [luaL_optstring, luaL_checkstring, lua_index]), hopt]
  simp

theorem stream_new (L : lua_State) (stack : List LuaValue) (u : Userdata) (fs : FileSystem) :
    lua_State.stream { L with stack := stack, heap := L.heap ++ [u], fs := fs } L.heap.length
      = some u.obj := by
  simp [lua_State.stream]

theorem put_writable (s : fstream) (t : Bytes) (hg : s.good = true) (hw : s.writable = true) :
    s.put t = { s with pending := s.pending ++ t } := by
  cases t with
  | nil => simp [fstream.put, hg]
  | cons c cs => simp [fstream.put, hg, hw]

theorem not_mem_c_str (x : Bytes) : NUL ∉ c_str x := by
  intro hm
  have := List.mem_takeWhile_imp hm
  simp at this

/-- The open mode `Open` builds for `"w"`, `"trunc"`. -/
theorem option_w_trunc :
    Open.option (c_str "w".toList) (c_str "trunc".toList)
      = Except.ok { in_ := false, out := true, app := false, trunc := true } := by
  rfl

/-- The open mode `Open` builds for `"r"`, whatever the options. -/
theorem option_r (o : Bytes) :
    Open.option (c_str "r".toList) (c_str o)
      = Except.ok { in_ := true, out := false, app := false, trunc := false } := by
  have : c_str ['r'] = ['r'] := by decide
  simp [Open.option, this]

/-- Three insertions and `close` on a good stream opened for writing without
`app`, positioned at the start of an empty file with an empty put area. -/
theorem write_close (s : fstream) (fs : FileSystem) (a b : Bytes) (hg : s.good = true)
    (ho : s.is_open = true) (hout : s.mode.out = true) (happ : s.mode.app = false)
    (hp : s.pending = []) (hpos : s.pos = 0) (hc : s.content fs = []) :
    ((((s.put a).put b).put [NL]).close fs).2 = fs.write s.fileName (a ++ b ++ [NL]) := by
  have hw : s.writable = true := by simp [fstream.writable, ho, hout]
  rw [put_writable s a hg hw,
    put_writable { s with pending := s.pending ++ a } b
      (by simpa [fstream.good] using hg) (by simpa [fstream.writable] using hw),
    put_writable { s with pending := s.pending ++ a ++ b } [NL]
      (by simpa [fstream.good] using hg) (by simpa [fstream.writable] using hw)]
  simp [fstream.close, fstream.sync, fstream.writable, fstream.content, ho, hout, happ, hp, hpos]
  simp [fstream.content] at hc
  simp [hc]

/-- The file system after `Write(a)`, `Writeln(b)`, `Close` on a handle just
opened with `"w"`, `"trunc"`. -/
theorem written_file (DEBUG : Bool) (L : lua_State) (fileName a b : Bytes)
    (hd : L.fs.denied (c_str fileName) = false) :
    (run DEBUG L.heap.length [Op.Write a, Op.Writeln b, Op.Close]
        (callOpen fileName "w".toList "trunc".toList L).1).fs
      = (L.fs.write (c_str fileName) []).write (c_str fileName) (c_str a ++ c_str b ++ [NL]) := by
  rw [callOpen_ok _ _ _ _ _ option_w_trunc]
  have h0 := stream_new L
    [LuaValue.string fileName, LuaValue.string "w".toList, LuaValue.string "trunc".toList,
      LuaValue.userdata L.heap.length]
    { obj := (fstream.ctor L.fs (c_str fileName)
        { in_ := false, out := true, app := false, trunc := true }).1,
      metatable := some "FileMetatable" }
    (fstream.ctor L.fs (c_str fileName) { in_ := false, out := true, app := false, trunc := true }).2
  simp only [fstream.ctor, hd, Bool.false_eq_true, if_false, if_true] at h0 ⊢
  obtain ⟨-, -, w1, w2, -⟩ := call_Write DEBUG h0 a
  obtain ⟨-, -, l1, l2, -⟩ := call_Writeln DEBUG w1 b
  obtain ⟨-, c1, c2⟩ := call_Close DEBUG l1
  simp only [run]
  rw [c2, l2, w2]
  exact write_close _ _ _ _ rfl rfl rfl rfl rfl rfl (by simp [fstream.content, FileSystem.write])

theorem c_str_line (a b : Bytes) :
    c_str (dumpText (c_str a ++ c_str b ++ [NL])) = c_str a ++ c_str b ++ [NL] := by
  rw [dumpText_eq_self _ (Or.inr (by simp))]
  apply c_str_eq_self
  have hNL : NUL ≠ NL := by decide
  simp [not_mem_c_str, hNL]

/-- The open modes `Open` builds for `"w"` with `"app"` or `"trunc"`. -/
theorem option_w (o : Bytes) (ho : o = "app".toList ∨ o = "trunc".toList) :
    Open.option (c_str "w".toList) (c_str o)
      = Except.ok { in_ := false, out := true, app := decide (o = "app".toList),
                    trunc := decide (o = "trunc".toList) } := by
  rcases ho with rfl | rfl <;> rfl

/-- Three insertions and `flush` on a good stream opened for writing that
stands at the end of its file with an empty put area. -/
theorem write_flush (s : fstream) (fs : FileSystem) (a b : Bytes) (hg : s.good = true)
    (ho : s.is_open = true) (hout : s.mode.out = true)
    (hp : s.pending = []) (hpos : s.pos = (s.content fs).length) :
    ((((s.put a).put b).put [NL]).flush fs).2
      = fs.write s.fileName (s.content fs ++ (a ++ b ++ [NL])) := by
  have hw : s.writable = true := by simp [fstream.writable, ho, hout]
  rw [put_writable s a hg hw,
    put_writable { s with pending := s.pending ++ a } b
      (by simpa [fstream.good] using hg) (by simpa [fstream.writable] using hw),
    put_writable { s with pending := s.pending ++ a ++ b } [NL]
      (by simpa [fstream.good] using hg) (by simpa [fstream.writable] using hw)]
  have hg2 := (good_iff s).1 hg
  simp [fstream.flush, fstream.good, hg2, fstream.sync, fstream.writable, ho, hout, hp, hpos,
    fstream.content, List.drop_eq_nil_of_le (Nat.le_add_right _ _)]

/-- The stream constructed with `out` for a file the operating system lets be
opened: open, good, with an empty put area, at the end of the file, which
holds its former content in `app` mode and nothing otherwise. -/
theorem ctor_out (fs : FileSystem) (f : Bytes) (m : openmode) (hd : fs.denied f = false)
    (hout : m.out = true) :
    (fstream.ctor fs f m).1.good = true ∧ (fstream.ctor fs f m).1.is_open = true
    ∧ (fstream.ctor fs f m).1.mode.out = true ∧ (fstream.ctor fs f m).1.pending = []
    ∧ (fstream.ctor fs f m).1.fileName = f
    ∧ (fstream.ctor fs f m).1.content (fstream.ctor fs f m).2
        = (if m.app = true then (fs.files f).getD [] else [])
    ∧ (fstream.ctor fs f m).1.pos
        = ((fstream.ctor fs f m).1.content (fstream.ctor fs f m).2).length := by
  simp [fstream.ctor, hd, hout, fstream.good, fstream.content, FileSystem.write]

/-! ### The debug guard -/

/-- In a debug build `Read`, `Readln` and `Dump` reject a handle whose stream
is not open with the error `not open` and leave the stream and the file
system as they are. -/
theorem debug_guard (L : lua_State) (h : Nat) (s : fstream) (hs : L.stream h = some s)
    (hclosed : s.is_open = false) (op : Op)
    (hop : (∃ n, op = Op.Read n) ∨ op = Op.Readln ∨ op = Op.Dump) :
    (call true h op L).2 = Outcome.error "not open"
    ∧ (call true h op L).1.stream h = some s
    ∧ (call true h op L).1.fs = L.fs := by
  rcases hop with ⟨n, rfl⟩ | rfl | rfl
  · rw [call_Read true hs n]; simp [debugNotOpen, hclosed, hs]
  · rw [call_Readln true hs]; simp [debugNotOpen, hclosed, hs]
  · rw [call_Dump true hs]; simp [debugNotOpen, hclosed, hs]

/-! ### The test of `eof()` before a read -/

/-- `Readln` on an open, good stream without unread bytes returns the empty
text: `eofbit` is only set by the `getline` that finds nothing. -/
theorem Readln_at_end (DEBUG : Bool) {L : lua_State} {h : Nat} {s : fstream}
    (hs : L.stream h = some s) (hopen : s.is_open = true) (hg : s.good = true)
    (hu : s.unread L.fs = []) :
    result (call DEBUG h Op.Readln L) = some (LuaValue.string []) := by
  have := (Readln_last DEBUG hs hopen hg (by rw [hu]; simp)).1
  rw [this, hu]
  rfl

/-- `Read(1)` on an open, good stream without unread bytes returns one byte,
the value the uninitialised `char` happens to hold. -/
theorem Read_one_at_end (DEBUG : Bool) {L : lua_State} {h : Nat} {s : fstream}
    (hs : L.stream h = some s) (hopen : s.is_open = true) (hg : s.good = true)
    (hu : s.unread L.fs = []) :
    result (call DEBUG h (Op.Read (some 1)) L) = some (LuaValue.string [L.junk]) := by
  have he := ((good_iff s).1 hg).1
  have hst := store_stream { L with stack := Op.args h (Op.Read (some 1)) } h s hs
  have h1 : toInt32 1 = 1 := by decide
  have hget : (s.get L.fs).2 = none := by simp [fstream.get, hg, hu]
  rw [call_Read DEBUG hs (some 1)]
  simp [debugNotOpen, hopen, fstream.eof, he, h1, hget, result, lua_pushlstring]

/-! ### C1: the modes `Open` accepts -/

/-- C1 (amended).  `Open` is called with a file name, a mode and options, the
mode and the options possibly omitted (nil or left out), which stands for
`"r"` and `"app"`; mode and options are read as C strings, that is up to
their first `NUL` byte.  With mode `"r"`, whatever the options, and with mode
`"w"` and options `"app"` or `"trunc"`, `Open` returns one value, the handle
of a new userdata block holding the stream constructed for that mode.  With
any other mode, or mode `"w"` and any other options, `Open` raises the
invalid-mode or invalid-option error, and no block is added and the file
system is untouched: no stream has been constructed. -/
theorem C1_open_modes (L : lua_State) (fileName : Bytes) (m o : Option Bytes)
    (extra : List LuaValue) (h : openStack fileName m o extra L.stack) :
    let mode := (m.map c_str).getD "r".toList
    let options := (o.map c_str).getD "app".toList
    (mode = "r".toList →
      Open.returnsHandle L fileName { in_ := true, out := false, app := false, trunc := false })
    ∧ (mode = "w".toList → options = "app".toList →
      Open.returnsHandle L fileName { in_ := false, out := true, app := true, trunc := false })
    ∧ (mode = "w".toList → options = "trunc".toList →
      Open.returnsHandle L fileName { in_ := false, out := true, app := false, trunc := true })
    ∧ (mode ≠ "r".toList → mode ≠ "w".toList →
      Open.raises L ("bzfile Error: invalid open mode \"" ++ String.mk mode ++ "\""))
    ∧ (mode = "w".toList → options ≠ "app".toList → options ≠ "trunc".toList →
      Open.raises L ("bzfile Error: invalid open option \"" ++ String.mk options ++ "\"")) := by
  intro mode options
  obtain ⟨h1, h2, h3⟩ := Open_args L fileName m o extra h
  have e := Open_eq L _ _ _ h1 h2 h3
  change Open L = match Open.option mode options with
      | Except.error e => (lua_pop_minus1 L, Outcome.error e)
      | Except.ok option =>
        ({ L with stack := L.stack ++ [LuaValue.userdata L.heap.length],
                  heap := L.heap ++ [{ obj := (fstream.ctor L.fs (c_str fileName) option).1,
                                       metatable := some "FileMetatable" }],
                  fs := (fstream.ctor L.fs (c_str fileName) option).2 }, Outcome.ret 1) at e
  clear_value mode options
  refine ⟨?_, ?_, ?_, ?_, ?_⟩
  · rintro rfl
    simp [Open.returnsHandle, e, Open.option]
  · rintro rfl rfl
    simp [Open.returnsHandle, e, Open.option]
  · rintro rfl rfl
    simp [Open.returnsHandle, e, Open.option]
  · intro hm hm2
    simp at hm hm2
    simp [Open.raises, e, Open.option, hm, hm2, lua_pop_minus1]
  · rintro rfl ho ho2
    simp at ho ho2
    simp [Open.raises, e, Open.option, ho, ho2, lua_pop_minus1]

/-- C1, counterexample.  The mode `r`, `NUL`, `x` is not the mode `"r"`, and
the options `app`, `NUL`, `x` are neither `"app"` nor `"trunc"`; yet `Open`
returns a handle for the file with that mode, and with mode `"w"` and those
options, and constructs a stream. -/
theorem C1_counterexample :
    ['r', NUL, 'x'] ≠ "r".toList ∧ ['r', NUL, 'x'] ≠ "w".toList
    ∧ (callOpen "f".toList ['r', NUL, 'x'] "app".toList (start [] 'x')).2 = Outcome.ret 1
    ∧ (callOpen "f".toList ['r', NUL, 'x'] "app".toList (start [] 'x')).1.heap.length = 1
    ∧ ['a', 'p', 'p', NUL, 'x'] ≠ "app".toList ∧ ['a', 'p', 'p', NUL, 'x'] ≠ "trunc".toList
    ∧ (callOpen "f".toList "w".toList ['a', 'p', 'p', NUL, 'x'] (start [] 'x')).2 = Outcome.ret 1
    ∧ (callOpen "f".toList "w".toList ['a', 'p', 'p', NUL, 'x'] (start [] 'x')).1.heap.length
        = 1 := by
  decide

/-- C1, witness: `Open("f")` returns a handle, `Open("f", "w", "new")` raises. -/
theorem C1_witness :
    Open.returnsHandle { start [] 'x' with stack := [LuaValue.string "f".toList] } "f".toList
      { in_ := true, out := false, app := false, trunc := false }
    ∧ Open.raises
        { start [] 'x' with stack := [LuaValue.string "f".toList, LuaValue.string "w".toList,
                                      LuaValue.string "new".toList] }
        "bzfile Error: invalid open option \"new\"" :=
  ⟨(C1_open_modes { start [] 'x' with stack := [LuaValue.string "f".toList] } "f".toList none none []
      (Or.inr (Or.inr ⟨rfl, rfl, rfl⟩))).1 rfl,
   (C1_open_modes { start [] 'x' with stack := [LuaValue.string "f".toList, LuaValue.string "w".toList,
                                      LuaValue.string "new".toList] }
      "f".toList (some "w".toList) (some "new".toList) [] (Or.inl rfl)).2.2.2.2 rfl
      (by decide) (by decide)⟩

/-! ### C2: the operating-system stream is released exactly once -/

/-- C2.  On a handle whose stream was opened and not yet released, after any
sequence `ops` of method calls the release count is 1 if a `Close` is among
them and 0 otherwise; a `Close` issued at that point returns without error
and leaves the count at 1 (it releases only when no `Close` came before);
the finalizer `Cleanup` run at that point returns without error and leaves
the count at 1 as well.  As `ops` is arbitrary this covers every `Close` and
the final `Cleanup` of every call sequence. -/
theorem C2_released_exactly_once (DEBUG : Bool) (L : lua_State) (h : Nat) (s : fstream)
    (hs : L.stream h = some s) (hopen : s.is_open = true) (hrel : s.released = 0)
    (ops : List Op) :
    ((run DEBUG h ops L).stream h).map fstream.released
        = some (if Op.Close ∈ ops then 1 else 0)
    ∧ (call DEBUG h Op.Close (run DEBUG h ops L)).2 = Outcome.ret 0
    ∧ ((call DEBUG h Op.Close (run DEBUG h ops L)).1.stream h).map fstream.released = some 1
    ∧ (gc h (run DEBUG h ops L)).2 = Outcome.ret 0
    ∧ ((gc h (run DEBUG h ops L)).1.stream h).map fstream.released = some 1 := by
  obtain ⟨s1, h1, ho, hr⟩ := run_stream DEBUG h ops L s hs
  obtain ⟨c1, c2, -⟩ := call_Close DEBUG h1
  obtain ⟨g1, g2, -⟩ := gc_eq h1
  refine ⟨?_, c1, ?_, g1, ?_⟩
  · simp [h1, hr, hopen, hrel]
  · rw [c2]
    simp only [Option.map_some', close_released, hr, ho, hopen, hrel]
    by_cases hc : Op.Close ∈ ops <;> simp [hc]
  · rw [g2]
    simp only [Option.map_some', dtor_released, hr, ho, hopen, hrel]
    by_cases hc : Op.Close ∈ ops <;> simp [hc]

/-- C2, witness: `Close`, `Readln`, `Close` and then the finalizer, and `Readln`
and then the finalizer, on a freshly opened handle. -/
theorem C2_witness :
    ((run false 0 [Op.Close, Op.Readln, Op.Close] (openedRead [] 'x')).stream 0).map
        fstream.released = some 1
    ∧ ((gc 0 (run false 0 [Op.Close, Op.Readln, Op.Close] (openedRead [] 'x'))).1.stream 0).map
        fstream.released = some 1
    ∧ ((gc 0 (run false 0 [Op.Readln] (openedRead [] 'x'))).1.stream 0).map
        fstream.released = some 1 :=
  ⟨(C2_released_exactly_once false (openedRead [] 'x') 0 _ rfl rfl rfl
      [Op.Close, Op.Readln, Op.Close]).1,
   (C2_released_exactly_once false (openedRead [] 'x') 0 _ rfl rfl rfl
      [Op.Close, Op.Readln, Op.Close]).2.2.2.2,
   (C2_released_exactly_once false (openedRead [] 'x') 0 _ rfl rfl rfl [Op.Readln]).2.2.2.2⟩

/-! ### C3: `Read(1)` until nil against `Dump` -/

/-- C3 (amended).  On a freshly opened read-mode handle (open, good, at
position 0, nothing buffered yet) over a file of `n` bytes, the first `n` calls of `Read(1)` return
the bytes of the file one by one, in order; `Dump` on that handle returns the
content with one `NL` appended when it is not empty and does not end in `NL`,
cut at the first `NUL` byte.  So the concatenation of these reads is the
text `Dump` returns whenever the content has no `NUL` byte and is empty or
ends in `NL`. -/
theorem C3_read_bytes_and_dump (DEBUG : Bool) (L : lua_State) (h : Nat) (s : fstream)
    (hs : L.stream h = some s) (hopen : s.is_open = true) (hin : s.mode.in_ = true)
    (hout : s.mode.out = false) (hg : s.good = true) (hpos : s.pos = 0)
    (hbuf : s.gbuf = []) :
    (readBytes DEBUG h (s.content L.fs).length L).1 = some (s.content L.fs)
    ∧ result (call DEBUG h Op.Dump L)
        = some (LuaValue.string (c_str (dumpText (s.content L.fs))))
    ∧ (NUL ∉ s.content L.fs →
       (s.content L.fs = [] ∨ (s.content L.fs).getLast? = some NL) →
        (readBytes DEBUG h (s.content L.fs).length L).1.map LuaValue.string
          = result (call DEBUG h Op.Dump L)) := by
  have hu : s.unread L.fs = s.content L.fs := by
    simp [fstream.unread, fstream.readable, hopen, hin, hpos, hbuf]
  have hr := readBytes_take DEBUG h (s.content L.fs).length L s hs hg (by rw [hu])
  rw [hu, List.take_length] at hr
  have hd := (Dump_read DEBUG hs hopen hin hout).1
  refine ⟨hr, hd, ?_⟩
  intro hnul hlast
  rw [hr, hd, dumpText_eq_self _ hlast, c_str_eq_self _ hnul]
  rfl

/-- C3, witness: a file holding `ab`, `NL`. -/
theorem C3_witness :
    (readBytes false 0 3 (openedRead "ab\n".toList 'x')).1.map LuaValue.string
      = result (call false 0 Op.Dump (openedRead "ab\n".toList 'x')) :=
  (C3_read_bytes_and_dump false (openedRead "ab\n".toList 'x') 0 _ rfl rfl rfl rfl rfl rfl
    rfl).2.2
    (by decide) (by decide)

/-- C3, counterexample.  The file holds `ab` and an uninitialised `char`
holds `x`: `Read(1)` repeated until nil returns `a`, `b` and then `x`, so
the concatenation is `abx`, while `Dump` on a freshly opened handle returns
`ab` followed by `NL`. -/
theorem C3_counterexample :
    readUntilNil false 0 5 (openedRead "ab".toList 'x') = some "abx".toList
    ∧ result (call false 0 Op.Dump (openedRead "ab".toList 'x'))
        = some (LuaValue.string "ab\n".toList)
    ∧ "abx".toList ≠ "ab\n".toList := by
  decide

/-! ### C4: `Readln` at the end of the file -/

/-- C4, the failing inputs.  On the freshly opened handle of an empty file no
byte is unread, and `Readln` returns the empty text, not nil.  On a file
holding `abc`, `NL`, the first `Readln` returns `abc` and consumes the whole
file; the second `Readln` returns the empty text, and only the third returns
nil. -/
theorem C4_readln_at_end :
    ((openedRead [] 'x').stream 0).map (fun s => s.unread (oneFile [])) = some []
    ∧ result (call false 0 Op.Readln (openedRead [] 'x')) = some (LuaValue.string [])
    ∧ result (call false 0 Op.Readln (openedRead "abc\n".toList 'x'))
        = some (LuaValue.string "abc".toList)
    ∧ ((run false 0 [Op.Readln] (openedRead "abc\n".toList 'x')).stream 0).map
        (fun s => s.unread (oneFile "abc\n".toList)) = some []
    ∧ result (call false 0 Op.Readln (run false 0 [Op.Readln] (openedRead "abc\n".toList 'x')))
        = some (LuaValue.string [])
    ∧ result (call false 0 Op.Readln
        (run false 0 [Op.Readln, Op.Readln] (openedRead "abc\n".toList 'x')))
        = some LuaValue.nil := by
  decide

/-! ### C5: what was written is what `Dump` returns -/

/-- C5 (amended).  When the operating system lets the file be opened: open it
with `"w"`, `"trunc"`, call `Write(a)`, `Writeln(b)` and `Close`, open it again
with `"r"` and call `Dump` on the new handle.  `Dump` returns `a` cut at its
first `NUL` byte, then `b` cut at its first `NUL` byte, then one `NL`; for
texts `a` and `b` without `NUL` byte that is `a`, `b` and one `NL`. -/
theorem C5_write_writeln_dump (DEBUG : Bool) (L : lua_State) (fileName a b o : Bytes)
    (hd : L.fs.denied (c_str fileName) = false) :
    result (call DEBUG
        (run DEBUG L.heap.length [Op.Write a, Op.Writeln b, Op.Close]
          (callOpen fileName "w".toList "trunc".toList L).1).heap.length
        Op.Dump
        (callOpen fileName "r".toList o
          (run DEBUG L.heap.length [Op.Write a, Op.Writeln b, Op.Close]
            (callOpen fileName "w".toList "trunc".toList L).1)).1)
      = some (LuaValue.string (c_str a ++ c_str b ++ [NL]))
    ∧ (NUL ∉ a → NUL ∉ b →
      result (call DEBUG
        (run DEBUG L.heap.length [Op.Write a, Op.Writeln b, Op.Close]
          (callOpen fileName "w".toList "trunc".toList L).1).heap.length
        Op.Dump
        (callOpen fileName "r".toList o
          (run DEBUG L.heap.length [Op.Write a, Op.Writeln b, Op.Close]
            (callOpen fileName "w".toList "trunc".toList L).1)).1)
      = some (LuaValue.string (a ++ b ++ [NL]))) := by
  have hfs := written_file DEBUG L fileName a b hd
  generalize run DEBUG L.heap.length [Op.Write a, Op.Writeln b, Op.Close]
      (callOpen fileName "w".toList "trunc".toList L).1 = L2 at hfs ⊢
  have key : result (call DEBUG L2.heap.length Op.Dump (callOpen fileName "r".toList o L2).1)
      = some (LuaValue.string (c_str a ++ c_str b ++ [NL])) := by
    rw [callOpen_ok _ _ _ _ _ (option_r o)]
    have h0 := stream_new L2
      [LuaValue.string fileName, LuaValue.string "r".toList, LuaValue.string o,
        LuaValue.userdata L2.heap.length]
      { obj := (fstream.ctor L2.fs (c_str fileName)
          { in_ := true, out := false, app := false, trunc := false }).1,
        metatable := some "FileMetatable" }
      (fstream.ctor L2.fs (c_str fileName)
        { in_ := true, out := false, app := false, trunc := false }).2
    have hden : L2.fs.denied (c_str fileName) = false := by rw [hfs]; exact hd
    have hfile : L2.fs.files (c_str fileName) = some (c_str a ++ c_str b ++ [NL]) := by
      rw [hfs]; simp [FileSystem.write]
    simp only [fstream.ctor, hden, hfile, Bool.false_eq_true, if_false, if_true] at h0 ⊢
    rw [(Dump_read DEBUG h0 rfl rfl rfl).1]
    simp only [fstream.content, hfile, Option.getD_some, c_str_line]
  refine ⟨key, ?_⟩
  intro ha hb
  rw [key, c_str_eq_self a ha, c_str_eq_self b hb]

/-- C5, witness: `a` is `abc`, `b` is `def`, the result `abcdef` and `NL`. -/
theorem C5_witness :
    result (call false 1 Op.Dump
        (callOpen "f".toList "r".toList "app".toList
          (run false 0 [Op.Write "abc".toList, Op.Writeln "def".toList, Op.Close]
            (openedWrite "old".toList 'x'))).1)
      = some (LuaValue.string "abcdef\n".toList) :=
  (C5_write_writeln_dump false (start "old".toList 'x') "f".toList "abc".toList "def".toList
    "app".toList rfl).2 (by decide) (by decide)

/-- C5, counterexample.  With `a` the three bytes `x`, `NUL`, `y` and `b` the
text `def`, the file written by `Write(a)`, `Writeln(b)`, `Close` is dumped as
`xdef` and `NL`: the bytes of `a` from the `NUL` on are not written. -/
theorem C5_counterexample :
    result (call false 1 Op.Dump
        (callOpen "f".toList "r".toList "app".toList
          (run false 0 [Op.Write ['x', NUL, 'y'], Op.Writeln "def".toList, Op.Close]
            (openedWrite "old".toList 'x'))).1)
      = some (LuaValue.string "xdef\n".toList)
    ∧ "xdef\n".toList ≠ ['x', NUL, 'y'] ++ "def".toList ++ [NL] := by
  decide

/-! ### C6: `Read` with a count above 1 -/

/-- C6 (amended).  On an open handle whose stream is good (no state flag set:
neither `eofbit` nor `failbit` nor `badbit`), for a count `n` with
`1 < n ≤ 2147483647` for which a buffer of `n` bytes can be allocated: the
unread bytes are the bytes the stream has buffered followed by the bytes of
the file behind them, which are the bytes of the file from the position of
the stream on as long as the buffered bytes are still what the file holds.
When unread bytes remain, `Read` returns the next `min n r` of the `r` unread
bytes, in order, and advances the position by that many; when none remains
it raises the error `zero bytes read`. -/
theorem C6_read_count (DEBUG : Bool) (L : lua_State) (h : Nat) (s : fstream)
    (hs : L.stream h = some s) (hopen : s.is_open = true) (hg : s.good = true)
    (n : Int) (hlo : 1 < n) (hhi : n ≤ 2147483647) (hmem : n.toNat ≤ L.memory) :
    (s.unread L.fs ≠ [] →
      result (call DEBUG h (Op.Read (some n)) L)
          = some (LuaValue.string ((s.unread L.fs).take n.toNat))
      ∧ ((call DEBUG h (Op.Read (some n)) L).1.stream h).map fstream.pos
          = some (s.pos + min n.toNat (s.unread L.fs).length))
    ∧ (s.unread L.fs = [] →
      (call DEBUG h (Op.Read (some n)) L).2 = Outcome.error "zero bytes read")
    ∧ (s.mode.in_ = true → s.bufferCurrent L.fs →
      s.unread L.fs = (s.content L.fs).drop s.pos) := by
  have hn : toInt32 n = n := by unfold toInt32; omega
  have hm := Read_many DEBUG hs hopen hg n (by rw [hn]; exact hlo) (by rw [hn]; exact hmem)
  rw [hn] at hm
  exact ⟨hm.1, hm.2, fun hin hc =>
    unread_current s L.fs (by simp [fstream.readable, hopen, hin]) hc⟩

/-- C6, witness: `Read(5)` on a file of three bytes and on an empty file. -/
theorem C6_witness :
    result (call false 0 (Op.Read (some 5)) (openedRead "abc".toList 'x'))
      = some (LuaValue.string "abc".toList)
    ∧ (call false 0 (Op.Read (some 5)) (openedRead [] 'x')).2 = Outcome.error "zero bytes read" :=
  ⟨((C6_read_count false (openedRead "abc".toList 'x') 0 _ rfl rfl rfl 5 (by decide) (by decide)
      (by decide)).1 (by decide)).1,
   (C6_read_count false (openedRead [] 'x') 0 _ rfl rfl rfl 5 (by decide) (by decide)
      (by decide)).2.1 rfl⟩

/-- C6, counterexample.  (1) The file holds `abc`; after a `Write` on the
read-mode handle the stream is open, `eofbit` is not set and three bytes are
unread, yet `Read(2)` raises `zero bytes read`.  (2) The file holds `abc`,
`NL`, `def`, `NL`; the handle at 0 reads the first line, which buffers the
rest; the file is then rewritten as `123456789` through a second handle;
`Read(3)` on the first handle, whose position is 4, returns the buffered
`def`, not the bytes `567` the file holds there.  (3) The file holds `abc`
and blocks of up to 1 GiB can be allocated: `Read(2147483647)` ends with the
exception `std::bad_alloc`, not with the three bytes.  (4) The file holds
`abc`: the count 2147483648 converts to a negative `int`, and `Read` returns
the single byte `a`, not the three bytes. -/
theorem C6_counterexample :
    ((call false 0 (Op.Read (some 2))
        (run false 0 [Op.Write ['x']] (openedRead "abc".toList 'x'))).2
      = Outcome.error "zero bytes read"
    ∧ ((run false 0 [Op.Write ['x']] (openedRead "abc".toList 'x')).stream 0).map
        (fun s => (s.is_open, s.mode.in_, s.eofbit, s.unread (oneFile "abc".toList)))
      = some (true, true, false, "abc".toList))
    ∧ (result (call false 0 (Op.Read (some 3)) (staleBuffer 'x'))
        = some (LuaValue.string "def".toList)
      ∧ ((staleBuffer 'x').stream 0).map
          (fun s => (s.is_open, s.good, s.pos, ((s.content (staleBuffer 'x').fs).drop s.pos).take 3))
        = some (true, true, 4, "567".toList))
    ∧ (call false 0 (Op.Read (some 2147483647)) (openedRead "abc".toList 'x')).2
        = Outcome.exception "std::bad_alloc"
    ∧ result (call false 0 (Op.Read (some 2147483648)) (openedRead "abc".toList 'x'))
        = some (LuaValue.string "a".toList) := by
  decide

/-! ### C7: chaining -/

/-- C7.  On every live handle and for every text, `Write`, `Writeln` and
`Flush` return exactly one value, and it is the handle they were called on;
no userdata block is added.
After `Open(fileName, "w", o)` with `o` one of `"app"` and `"trunc"`, the
chain `:Write("a"):Writeln("b"):Flush()` therefore runs to its end, each call
on the handle `Open` returned; and when the operating system lets the file be
opened the file then holds its former content (none with `"trunc"`) followed
by `a`, `b` and `NL`. -/
theorem C7_chaining (DEBUG : Bool) (L : lua_State) :
    (∀ h s text, L.stream h = some s →
      ((call DEBUG h (Op.Write text) L).2 = Outcome.ret 1
        ∧ result (call DEBUG h (Op.Write text) L) = some (LuaValue.userdata h)
        ∧ (call DEBUG h (Op.Write text) L).1.heap.length = L.heap.length)
      ∧ ((call DEBUG h (Op.Writeln text) L).2 = Outcome.ret 1
        ∧ result (call DEBUG h (Op.Writeln text) L) = some (LuaValue.userdata h)
        ∧ (call DEBUG h (Op.Writeln text) L).1.heap.length = L.heap.length)
      ∧ ((call DEBUG h Op.Flush L).2 = Outcome.ret 1
        ∧ result (call DEBUG h Op.Flush L) = some (LuaValue.userdata h)
        ∧ (call DEBUG h Op.Flush L).1.heap.length = L.heap.length))
    ∧ (∀ fileName o, o = "app".toList ∨ o = "trunc".toList →
      result (callOpen fileName "w".toList o L) = some (LuaValue.userdata L.heap.length)
      ∧ result (callOn DEBUG (result (callOpen fileName "w".toList o L)) (Op.Write ['a'])
          (callOpen fileName "w".toList o L).1) = some (LuaValue.userdata L.heap.length)
      ∧ result (callOn DEBUG (some (LuaValue.userdata L.heap.length)) (Op.Writeln ['b'])
          (callOn DEBUG (some (LuaValue.userdata L.heap.length)) (Op.Write ['a'])
            (callOpen fileName "w".toList o L).1).1) = some (LuaValue.userdata L.heap.length)
      ∧ result (callOn DEBUG (some (LuaValue.userdata L.heap.length)) Op.Flush
          (callOn DEBUG (some (LuaValue.userdata L.heap.length)) (Op.Writeln ['b'])
            (callOn DEBUG (some (LuaValue.userdata L.heap.length)) (Op.Write ['a'])
              (callOpen fileName "w".toList o L).1).1).1) = some (LuaValue.userdata L.heap.length)
      ∧ (L.fs.denied (c_str fileName) = false →
        (callOn DEBUG (some (LuaValue.userdata L.heap.length)) Op.Flush
          (callOn DEBUG (some (LuaValue.userdata L.heap.length)) (Op.Writeln ['b'])
            (callOn DEBUG (some (LuaValue.userdata L.heap.length)) (Op.Write ['a'])
              (callOpen fileName "w".toList o L).1).1).1).1.fs.files (c_str fileName)
          = some ((if o = "app".toList then (L.fs.files (c_str fileName)).getD [] else [])
                    ++ ['a', 'b', NL]))) := by
  constructor
  · intro h s text hs
    exact ⟨⟨(call_Write DEBUG hs text).1, (call_Write DEBUG hs text).2.1,
        (call_Write DEBUG hs text).2.2.2.2⟩,
      ⟨(call_Writeln DEBUG hs text).1, (call_Writeln DEBUG hs text).2.1,
        (call_Writeln DEBUG hs text).2.2.2.2⟩,
      ⟨(call_Flush DEBUG hs).1, (call_Flush DEBUG hs).2.1, (call_Flush DEBUG hs).2.2.2.2⟩⟩
  · intro fileName o ho
    have hopen := callOpen_ok fileName "w".toList o L _ (option_w o ho)
    have h0 := stream_new L
      [LuaValue.string fileName, LuaValue.string "w".toList, LuaValue.string o,
        LuaValue.userdata L.heap.length]
      { obj := (fstream.ctor L.fs (c_str fileName)
          { in_ := false, out := true, app := decide (o = "app".toList),
            trunc := decide (o = "trunc".toList) }).1,
        metatable := some "FileMetatable" }
      (fstream.ctor L.fs (c_str fileName)
        { in_ := false, out := true, app := decide (o = "app".toList),
          trunc := decide (o = "trunc".toList) }).2
    have hres : result (callOpen fileName "w".toList o L) = some (LuaValue.userdata L.heap.length) := by
      rw [hopen]; simp [result, lua_State.top]
    rw [hres]
    simp only [callOn]
    rw [hopen]
    obtain ⟨-, w0, w1, w2, -⟩ := call_Write DEBUG h0 ['a']
    obtain ⟨-, l0, l1, l2, -⟩ := call_Writeln DEBUG w1 ['b']
    obtain ⟨-, f0, f1, f2, -⟩ := call_Flush DEBUG l1
    refine ⟨trivial, w0, l0, f0, ?_⟩
    intro hd
    rw [f2, l2, w2]
    have hc : c_str ['a'] = ['a'] ∧ c_str ['b'] = ['b'] := by decide
    rw [hc.1, hc.2]
    obtain ⟨k1, k2, k3, k4, k5, k6, k7⟩ := ctor_out L.fs (c_str fileName)
      { in_ := false, out := true, app := decide (o = "app".toList),
        trunc := decide (o = "trunc".toList) } hd rfl
    rw [write_flush _ _ _ _ k1 k2 k3 k4 k7, k5, k6]
    simp [FileSystem.write]

/-- C7, witness: the chain after `Open("f", "w", "trunc")`. -/
theorem C7_witness :
    result (callOn false (some (LuaValue.userdata 0)) Op.Flush
        (callOn false (some (LuaValue.userdata 0)) (Op.Writeln ['b'])
          (callOn false (some (LuaValue.userdata 0)) (Op.Write ['a'])
            (callOpen "f".toList "w".toList "trunc".toList (start "old".toList 'x')).1).1).1)
      = some (LuaValue.userdata 0)
    ∧ (callOn false (some (LuaValue.userdata 0)) Op.Flush
        (callOn false (some (LuaValue.userdata 0)) (Op.Writeln ['b'])
          (callOn false (some (LuaValue.userdata 0)) (Op.Write ['a'])
            (callOpen "f".toList "w".toList "trunc".toList (start "old".toList 'x')).1).1).1).1.fs.files
        "f".toList = some ['a', 'b', NL] :=
  ⟨((C7_chaining false (start "old".toList 'x')).2 "f".toList "trunc".toList (Or.inr rfl)).2.2.2.1,
   ((C7_chaining false (start "old".toList 'x')).2 "f".toList "trunc".toList (Or.inr rfl)).2.2.2.2
      rfl⟩

/-! ### C8: `Dump` -/

/-- C8 (amended).  On an open read-mode handle, whatever its position and
state flags, `Dump` returns the text of the whole file from its beginning,
every line followed by one `NL` (also a last line that has none in the
file), cut at the first `NUL` byte; the file is unchanged; directly
afterwards `Read` (with any count) and `Readln` return nil, and a second
`Dump` returns the same text. -/
theorem C8_dump_whole_file (DEBUG : Bool) (L : lua_State) (h : Nat) (s : fstream)
    (hs : L.stream h = some s) (hopen : s.is_open = true) (hin : s.mode.in_ = true)
    (hout : s.mode.out = false) (n : Option Int) :
    result (call DEBUG h Op.Dump L)
        = some (LuaValue.string (c_str (dumpText (s.content L.fs))))
    ∧ (call DEBUG h Op.Dump L).1.fs = L.fs
    ∧ result (call DEBUG h (Op.Read n) (call DEBUG h Op.Dump L).1) = some LuaValue.nil
    ∧ result (call DEBUG h Op.Readln (call DEBUG h Op.Dump L).1) = some LuaValue.nil
    ∧ result (call DEBUG h Op.Dump (call DEBUG h Op.Dump L).1)
        = some (LuaValue.string (c_str (dumpText (s.content L.fs)))) := by
  obtain ⟨d1, ⟨t, d2, te, topen, tm, tn⟩, d3⟩ := Dump_read DEBUG hs hopen hin hout
  refine ⟨d1, d3, (Read_eof DEBUG d2 topen te n).1, (Readln_eof DEBUG d2 topen te).1, ?_⟩
  have := (Dump_read DEBUG d2 topen (by rw [tm]; exact hin) (by rw [tm]; exact hout)).1
  rw [this, d3]
  simp [fstream.content, tn]

/-- C8, witness: `Dump` of a file holding `ab`, `NL`, `cd`. -/
theorem C8_witness :
    result (call false 0 Op.Dump (openedRead "ab\ncd".toList 'x'))
      = some (LuaValue.string "ab\ncd\n".toList) :=
  (C8_dump_whole_file false (openedRead "ab\ncd".toList 'x') 0 _ rfl rfl rfl rfl none).1

/-- C8, counterexample.  The file holds `a`, `NUL`, `b`, `NL`; `Dump` on the
freshly opened read handle returns the one byte `a`, not the content of the
file. -/
theorem C8_counterexample :
    result (call false 0 Op.Dump (openedRead ['a', NUL, 'b', NL] 'x'))
      = some (LuaValue.string ['a'])
    ∧ ((openedRead ['a', NUL, 'b', NL] 'x').stream 0).map
        (fun s => s.content (openedRead ['a', NUL, 'b', NL] 'x').fs) = some ['a', NUL, 'b', NL]
    ∧ ['a'] ≠ ['a', NUL, 'b', NL] := by
  decide

/-! ### C9: the debug guard is missing from the write operations -/

/-- C9, the failing inputs, in a debug build.  On a handle closed by `Close`
the stream is not open; `Read`, `Readln` and `Dump` are rejected with `not
open`, but `Write`, `Writeln` and `Flush` return the handle without raising
an error, and `Write` and `Writeln` change the stream (they set `badbit`).
On a handle whose file could not be opened `Write`, `Writeln` and `Flush`
return the handle without error as well. -/
theorem C9_unguarded_writes :
    ((run true 0 [Op.Close] (openedWrite [] 'x')).stream 0).map
        (fun s => (s.is_open, s.badbit)) = some (false, false)
    ∧ (call true 0 (Op.Read none) (run true 0 [Op.Close] (openedWrite [] 'x'))).2
        = Outcome.error "not open"
    ∧ (call true 0 Op.Readln (run true 0 [Op.Close] (openedWrite [] 'x'))).2
        = Outcome.error "not open"
    ∧ (call true 0 Op.Dump (run true 0 [Op.Close] (openedWrite [] 'x'))).2
        = Outcome.error "not open"
    ∧ (call true 0 (Op.Write ['a']) (run true 0 [Op.Close] (openedWrite [] 'x'))).2
        = Outcome.ret 1
    ∧ ((call true 0 (Op.Write ['a']) (run true 0 [Op.Close] (openedWrite [] 'x'))).1.stream 0).map
        (fun s => (s.is_open, s.badbit)) = some (false, true)
    ∧ (call true 0 (Op.Writeln ['a']) (run true 0 [Op.Close] (openedWrite [] 'x'))).2
        = Outcome.ret 1
    ∧ ((call true 0 (Op.Writeln ['a']) (run true 0 [Op.Close] (openedWrite [] 'x'))).1.stream 0).map
        (fun s => (s.is_open, s.badbit)) = some (false, true)
    ∧ (call true 0 Op.Flush (run true 0 [Op.Close] (openedWrite [] 'x'))).2 = Outcome.ret 1
    ∧ ((openedMissing [] 'x').stream 0).map fstream.is_open = some false
    ∧ (call true 0 (Op.Write ['a']) (openedMissing [] 'x')).2 = Outcome.ret 1
    ∧ (call true 0 (Op.Writeln ['a']) (openedMissing [] 'x')).2 = Outcome.ret 1
    ∧ (call true 0 Op.Flush (openedMissing [] 'x')).2 = Outcome.ret 1 := by
  decide

/-! ### C10: `Readln` -/

/-- C10 (amended).  On a handle whose stream is good (no state flag set) and
has unread bytes: the unread bytes are the bytes the stream has buffered
followed by the bytes of the file behind them, which are the bytes of the
file from the position of the stream on as long as the buffered bytes are
still what the file holds.  When a terminator is among the unread bytes,
`Readln` returns the bytes before the first terminator, cut at their first
`NUL` byte, and moves the position just past that terminator, so that the
bytes after it are the unread ones; when there is no terminator, `Readln`
returns all unread bytes, cut at their first `NUL` byte, and the next
`Readln` returns nil. -/
theorem C10_readln (DEBUG : Bool) (L : lua_State) (h : Nat) (s : fstream)
    (hs : L.stream h = some s) (hg : s.good = true) :
    (∀ line rest, s.unread L.fs = line ++ NL :: rest → (∀ c ∈ line, c ≠ NL) →
      result (call DEBUG h Op.Readln L) = some (LuaValue.string (c_str line))
      ∧ ((call DEBUG h Op.Readln L).1.stream h).map fstream.pos = some (s.pos + line.length + 1)
      ∧ ((call DEBUG h Op.Readln L).1.stream h).map
          (fun t => t.unread (call DEBUG h Op.Readln L).1.fs) = some rest)
    ∧ (s.unread L.fs ≠ [] → (∀ c ∈ s.unread L.fs, c ≠ NL) →
      result (call DEBUG h Op.Readln L) = some (LuaValue.string (c_str (s.unread L.fs)))
      ∧ result (call DEBUG h Op.Readln (call DEBUG h Op.Readln L).1) = some LuaValue.nil)
    ∧ (s.is_open = true → s.mode.in_ = true → s.bufferCurrent L.fs →
      s.unread L.fs = (s.content L.fs).drop s.pos) := by
  refine ⟨?_, ?_, fun hopen hin hc =>
    unread_current s L.fs (by simp [fstream.readable, hopen, hin]) hc⟩
  · intro line rest hu hn
    obtain ⟨r1, r2, r3⟩ := Readln_line DEBUG hs hg line rest hu hn
    refine ⟨r1, by rw [r2]; simp [Nat.add_assoc], ?_⟩
    rw [r2, r3]
    simp only [Option.map_some', Option.some.injEq]
    rw [unread_bump s L.fs (line.length + 1) (by rw [hu]; simp), hu]
    simp
  · intro hu hn
    have hopen := (is_open_of_unread _ _ hu).1
    obtain ⟨r1, ⟨t, r2, te, topen⟩, -⟩ := Readln_last DEBUG hs hopen hg hn
    exact ⟨r1, (Readln_eof DEBUG r2 topen te).1⟩

/-- C10, witness: the first line of a file holding `ab`, `NL`, `cd`. -/
theorem C10_witness :
    result (call false 0 Op.Readln (openedRead "ab\ncd".toList 'x'))
      = some (LuaValue.string "ab".toList) :=
  ((C10_readln false (openedRead "ab\ncd".toList 'x') 0 _ rfl rfl).1
    "ab".toList "cd".toList rfl (by decide)).1

/-- C10, counterexample.  (1) The file holds `a`, `NUL`, `b`, `NL`: `Readln`
on the freshly opened handle returns `a`, not the three bytes before the
terminator.  (2) The file holds `ab`, `NL`; after a `Write` on the read-mode
handle the stream is open, `eofbit` is not set and three bytes are unread,
yet `Readln` returns the empty text.  (3) The file holds `abc`, `NL`, `def`,
`NL`; the handle at 0 reads the first line, which buffers the rest; the file
is then rewritten as `123456789` through a second handle; `Readln` on the
first handle, whose position is 4, returns the buffered line `def`, not the
bytes `56789` the file holds there. -/
theorem C10_counterexample :
    result (call false 0 Op.Readln (openedRead ['a', NUL, 'b', NL] 'x'))
      = some (LuaValue.string ['a'])
    ∧ (result (call false 0 Op.Readln (run false 0 [Op.Write ['x']] (openedRead ['a', 'b', NL] 'x')))
        = some (LuaValue.string [])
      ∧ ((run false 0 [Op.Write ['x']] (openedRead ['a', 'b', NL] 'x')).stream 0).map
          (fun s => (s.is_open, s.eofbit, s.unread (oneFile ['a', 'b', NL])))
        = some (true, false, ['a', 'b', NL]))
    ∧ (result (call false 0 Op.Readln (staleBuffer 'x')) = some (LuaValue.string "def".toList)
      ∧ ((staleBuffer 'x').stream 0).map
          (fun s => (s.is_open, s.good, s.pos, (s.content (staleBuffer 'x').fs).drop s.pos))
        = some (true, true, 4, "56789".toList)) := by
  decide

end BzFile
